import Mathlib

/-!
# Verification of the buscasmilhas scraper suite

Shallow embedding of the pure/logic layers of the three scraper variants in
this repository:

* `Capo` — `capoviagens_scraper_gha.py`
* `Flip` — `flipmilhas-scraper/flipmilhas_scraper_gha.py`
* `MaxM` — the MaxMilhas variant (`src/unnamed/part_000`, header names it
  `maxmilhas_scraper_gha.py`)

Python strings are modeled as `List Char` / `String`; `Optional[str]`
arguments as `Option String`; `Decimal`/`float` results as `ℚ` (every value
parsed by these scripts is a finite decimal, and `float(s)` /
`float(Decimal(s))` round the same decimal value, so equalities between
parses are preserved by the model).  Python exceptions are modeled with an
explicit `Except PyExc` layer where a claim is about raising behavior.
Wall-clock time is modeled in tenths of a second.
-/

/-- Exceptions that the embedded code can raise.  Each constructor models a
Python `Exception` subclass actually raised by a primitive used in the
sources (`float`→`ValueError`, `Decimal`→`InvalidOperation`,
`datetime.time`/`datetime`→`ValueError`, plus `TypeError` which the
FlipMilhas `except` clause also lists). -/
inductive PyExc where
  | valueError
  | invalidOperation
  | typeError
  deriving DecidableEq, Repr

/-- Python `\s` (whitespace class), restricted to the ASCII whitespace
characters that can occur in the scraped texts. -/
def pyIsSpace (c : Char) : Bool :=
  c = ' ' || c = '\t' || c = '\n' || c = '\x0d' || c = '\x0b' || c = '\x0c'

/-- Python `str.strip()` on a character list. -/
def pyStrip (l : List Char) : List Char :=
  ((l.dropWhile pyIsSpace).reverse.dropWhile pyIsSpace).reverse

/-- Truthiness of a Python `Optional[str]`: `None` and `""` are falsy. -/
def strTruthy : Option String → Bool
  | none => false
  | some s => !s.isEmpty

/-- `a or b` on Python `Optional[str]` values. -/
def pyOrStr (a b : Option String) : Option String :=
  if strTruthy a then a else b

/-- Numeric value of a decimal digit character. -/
def digitVal (c : Char) : ℕ := c.toNat - 48

/-- Character for a decimal digit. -/
def digitChar (d : ℕ) : Char := Char.ofNat (48 + d)

/-- Value of a most-significant-first digit string. -/
def digitsVal (l : List Char) : ℕ :=
  l.foldl (fun a c => 10 * a + digitVal c) 0

/-- Split a character list at its first `'.'`; the second component is
`none` when no dot occurs, otherwise the raw remainder after the dot. -/
def splitAtDot : List Char → List Char × Option (List Char)
  | [] => ([], none)
  | c :: rest =>
    if c = '.' then ([], some rest)
    else
      let p := splitAtDot rest
      (c :: p.1, p.2)

/-- The strings accepted by Python `float(...)` / `Decimal(...)` among
strings built only from decimal digits and `'.'` (the only characters that
can survive the scrapers' cleanup pipeline): at least one digit and at most
one dot.  Returns the digit-level reading
`(integer part, fraction digits value, fraction length)`. -/
def parseNumParts (l : List Char) : Option (ℕ × ℕ × ℕ) :=
  match splitAtDot l with
  | (a, none) =>
    if a ≠ [] ∧ a.all Char.isDigit then some (digitsVal a, 0, 0) else none
  | (a, some b) =>
    if (a ≠ [] ∨ b ≠ []) ∧ a.all Char.isDigit ∧ b.all Char.isDigit ∧ '.' ∉ b then
      some (digitsVal a, digitsVal b, b.length)
    else none

/-- The exact decimal value of a digit-level reading. -/
def partsVal (p : ℕ × ℕ × ℕ) : ℚ := (p.1 : ℚ) + (p.2.1 : ℚ) / 10 ^ p.2.2

/-- Value of Python `float(...)` / `Decimal(...)` on a cleaned string. -/
def parseNumStr (l : List Char) : Option ℚ := (parseNumParts l).map partsVal

/-- `re.sub(r"[^\d,\.]", "", s).replace(".", "").replace(",", ".")` — the
shared cleanup pipeline of `brl_to_float` / `brl_to_decimal`. -/
def brlClean (s : String) : List Char :=
  ((s.toList.filter (fun c => c.isDigit || c = ',' || c = '.')).filter
      (fun c => c ≠ '.')).map (fun c => if c = ',' then '.' else c)

namespace Capo

/-- `brl_to_float` from `capoviagens_scraper_gha.py`: guard `if not s`,
cleanup pipeline, then `float(s1)` with `except Exception → None`. -/
def brl_to_float (s : Option String) : Option ℚ :=
  match s with
  | none => none
  | some t => if t.isEmpty then none else parseNumStr (brlClean t)

/-- `brl_to_float` with the explicit exception layer: `float(s1)` raises
`ValueError` on an unparsable string and the bare `except Exception`
catches every exception. -/
def brl_to_float_run (s : Option String) : Except PyExc (Option ℚ) :=
  match s with
  | none => .ok none
  | some t =>
    if t.isEmpty then .ok none
    else
      match (match parseNumStr (brlClean t) with
             | some q => Except.ok q
             | none => Except.error PyExc.valueError : Except PyExc ℚ) with
      | .ok q => .ok (some q)
      | .error _ => .ok none

end Capo

namespace Flip

/-- `brl_to_decimal` from `flipmilhas_scraper_gha.py`: same pipeline, with
`Decimal(s)` and `except (InvalidOperation, TypeError) → None`. -/
def brl_to_decimal (s : Option String) : Option ℚ :=
  match s with
  | none => none
  | some t => if t.isEmpty then none else parseNumStr (brlClean t)

/-- `brl_to_decimal` with the explicit exception layer: `Decimal(s)` raises
`InvalidOperation` on an unparsable string, which is in the caught class
`(InvalidOperation, TypeError)`; any other exception would propagate. -/
def brl_to_decimal_run (s : Option String) : Except PyExc (Option ℚ) :=
  match s with
  | none => .ok none
  | some t =>
    if t.isEmpty then .ok none
    else
      match (match parseNumStr (brlClean t) with
             | some q => Except.ok q
             | none => Except.error PyExc.invalidOperation : Except PyExc ℚ) with
      | .ok q => .ok (some q)
      | .error e =>
        if e = PyExc.invalidOperation ∨ e = PyExc.typeError then .ok none
        else .error e

end Flip

namespace MaxM

/-- `brl_to_decimal` from the MaxMilhas variant — textually the same
function as FlipMilhas's. -/
def brl_to_decimal (s : Option String) : Option ℚ :=
  match s with
  | none => none
  | some t => if t.isEmpty then none else parseNumStr (brlClean t)

end MaxM

/-- A `datetime.time` value (seconds granularity, as used by the rows). -/
structure TimeOfDay where
  hour : ℕ
  minute : ℕ
  second : ℕ
  deriving DecidableEq, Repr

/-- `datetime.time(hh, mm, ss)` with its `ValueError` range check. -/
def pyTimeE (hh mm ss : ℕ) : Except PyExc TimeOfDay :=
  if hh ≤ 23 ∧ mm ≤ 59 ∧ ss ≤ 59 then .ok ⟨hh, mm, ss⟩
  else .error .valueError

/-- Two-digit group value. -/
def twoDigits (c1 c2 : Char) : ℕ := 10 * digitVal c1 + digitVal c2

/-- `re.fullmatch(r"(\d{2}):(\d{2})(?::(\d{2}))?", l)`: the groups
`(hh, mm, ss)` with `ss` defaulted to `"00"` when absent. -/
def fullmatchHHMMSS : List Char → Option (ℕ × ℕ × ℕ)
  | [h1, h2, c, m1, m2] =>
    if h1.isDigit && h2.isDigit && c = ':' && m1.isDigit && m2.isDigit then
      some (twoDigits h1 h2, twoDigits m1 m2, 0)
    else none
  | [h1, h2, c, m1, m2, c2, s1, s2] =>
    if h1.isDigit && h2.isDigit && c = ':' && m1.isDigit && m2.isDigit &&
        c2 = ':' && s1.isDigit && s2.isDigit then
      some (twoDigits h1 h2, twoDigits m1 m2, twoDigits s1 s2)
    else none
  | _ => none

namespace Capo

/-- `hhmm_to_time` from `capoviagens_scraper_gha.py`: guard `if not s`,
`re.fullmatch` on `s.strip()`, seconds defaulted to `"00"`, and
`datetime.time(...)` with `except ValueError → None`. -/
def hhmm_to_time (s : Option String) : Option TimeOfDay :=
  match s with
  | none => none
  | some t =>
    if t.isEmpty then none
    else
      match fullmatchHHMMSS (pyStrip t.toList) with
      | none => none
      | some (hh, mm, ss) =>
        match pyTimeE hh mm ss with
        | .ok v => some v
        | .error _ => none

/-- `hhmm_to_time` with the explicit exception layer: the only raising
primitive is `datetime.time`, whose `ValueError` is exactly the class the
`except ValueError` clause catches. -/
def hhmm_to_time_run (s : Option String) : Except PyExc (Option TimeOfDay) :=
  match s with
  | none => .ok none
  | some t =>
    if t.isEmpty then .ok none
    else
      match fullmatchHHMMSS (pyStrip t.toList) with
      | none => .ok none
      | some (hh, mm, ss) =>
        match pyTimeE hh mm ss with
        | .ok v => .ok (some v)
        | .error e => if e = PyExc.valueError then .ok none else .error e

end Capo

/-- Greedy match of `(\d{2}):(\d{2})(?::(\d{2}))?` anchored at the head of
the list (no boundary requirements — none appear in this regex). -/
def timeMatchHere : List Char → Option (ℕ × ℕ × ℕ)
  | h1 :: h2 :: c :: m1 :: m2 :: rest =>
    if h1.isDigit && h2.isDigit && c = ':' && m1.isDigit && m2.isDigit then
      match rest with
      | c2 :: s1 :: s2 :: _ =>
        if c2 = ':' && s1.isDigit && s2.isDigit then
          some (twoDigits h1 h2, twoDigits m1 m2, twoDigits s1 s2)
        else some (twoDigits h1 h2, twoDigits m1 m2, 0)
      | _ => some (twoDigits h1 h2, twoDigits m1 m2, 0)
    else none
  | _ => none

/-- `re.search(r'(\d{2}):(\d{2})(?::(\d{2}))?', l)`: leftmost match. -/
def searchHHMMSS : List Char → Option (ℕ × ℕ × ℕ)
  | [] => none
  | c :: rest =>
    match timeMatchHere (c :: rest) with
    | some r => some r
    | none => searchHHMMSS rest

namespace MaxM

/-- `parse_time_only` from the MaxMilhas variant: guard `if not txt`,
`re.search` (not `fullmatch`!) on `txt.strip()`, seconds defaulted, and
`datetime.time(...)` with `except ValueError → None`. -/
def parse_time_only (s : Option String) : Option TimeOfDay :=
  match s with
  | none => none
  | some t =>
    if t.isEmpty then none
    else
      match searchHHMMSS (pyStrip t.toList) with
      | none => none
      | some (hh, mm, ss) =>
        match pyTimeE hh mm ss with
        | .ok v => some v
        | .error _ => none

/-- `parse_time_only` with the explicit exception layer (same raising
analysis as `Capo.hhmm_to_time_run`). -/
def parse_time_only_run (s : Option String) : Except PyExc (Option TimeOfDay) :=
  match s with
  | none => .ok none
  | some t =>
    if t.isEmpty then .ok none
    else
      match searchHHMMSS (pyStrip t.toList) with
      | none => .ok none
      | some (hh, mm, ss) =>
        match pyTimeE hh mm ss with
        | .ok v => .ok (some v)
        | .error e => if e = PyExc.valueError then .ok none else .error e

end MaxM

theorem dropWhile_length_le (p : Char → Bool) (l : List Char) :
    (l.dropWhile p).length ≤ l.length := by
  induction l with
  | nil => simp [List.dropWhile]
  | cons c rest ih =>
    simp only [List.dropWhile]
    split
    · exact Nat.le_trans ih (Nat.le_succ _)
    · exact Nat.le_refl _

/-- Python `\w` (word character), restricted to ASCII alphanumerics, `'_'`
and the accented letters occurring in the scraped Portuguese texts. -/
def pyIsWord (c : Char) : Bool :=
  c.isAlphanum || c = '_' ||
    c = 'é' || c = 'É' || c = 'ã' || c = 'Ã' || c = 'ê' || c = 'Ê' ||
    c = 'á' || c = 'Á' || c = 'í' || c = 'Í' || c = 'ó' || c = 'Ó' ||
    c = 'ú' || c = 'Ú' || c = 'ç' || c = 'Ç'

/-- Python `str.lower`, extended to the accented uppercase letters in the
texts this code handles (Lean's `Char.toLower` is ASCII-only). -/
def pyLower (c : Char) : Char :=
  if c = 'É' then 'é' else if c = 'Ã' then 'ã' else if c = 'Ê' then 'ê'
  else if c = 'Á' then 'á' else if c = 'Í' then 'í' else if c = 'Ó' then 'ó'
  else if c = 'Ú' then 'ú' else if c = 'Ç' then 'ç' else c.toLower

/-- `\b` between a previous character (`none` at string start) and the
rest of the input: a word/non-word transition. -/
def boundaryBefore (prev : Option Char) : Bool :=
  match prev with
  | none => true
  | some c => !pyIsWord c

/-- `\b` after a word character, looking at the rest of the input. -/
def boundaryAfterWord : List Char → Bool
  | [] => true
  | c :: _ => !pyIsWord c

/-- Case-insensitive match of a literal character list at the head. -/
def ciPrefix : List Char → List Char → Bool
  | [], _ => true
  | _ :: _, [] => false
  | p :: ps, c :: cs => (pyLower c = pyLower p || (p = 'é' && pyLower c = 'e')) && ciPrefix ps cs

/-- The core literal `linhas a[eé]reas` of `clean_cia_text`'s regex
(case-insensitive; the `[eé]` class is folded into `ciPrefix` via the
`'é'` pattern character). -/
def linhasCore : List Char := ['l','i','n','h','a','s',' ','a','é','r','e','a','s']

/-- Greedy match of the optional FlipMilhas suffix group
`(?:\s+(s\.?\s*/?\s*a\.?)\b)?` against the text following the core.
Returns the number of characters consumed together with the last consumed
character, or `none` when the group cannot match (zero repetitions).  The
only backtracking the real regex can perform here is dropping the trailing
optional `'.'` when the final `\b` fails, which is mirrored explicitly. -/
def linhasSuffix (l : List Char) : Option (ℕ × Char) :=
  let w1 := l.takeWhile pyIsSpace
  if w1.isEmpty then none
  else
    match l.drop w1.length with
    | [] => none
    | c :: r2 =>
      if pyLower c = 's' then
        let (d1, r3) := match r2 with
          | '.' :: r => (1, r)
          | r => (0, r)
        let w2 := r3.takeWhile pyIsSpace
        let r4 := r3.drop w2.length
        let (sl, r5) := match r4 with
          | '/' :: r => (1, r)
          | r => (0, r)
        let w3 := r5.takeWhile pyIsSpace
        let r6 := r5.drop w3.length
        match r6 with
        | [] => none
        | a :: r7 =>
          if pyLower a = 'a' then
            let base := w1.length + 1 + d1 + w2.length + sl + w3.length + 1
            match r7 with
            | '.' :: r8 =>
              -- take the trailing '.' only if `\b` holds after it, i.e.
              -- the next character is a word character
              match r8 with
              | d :: _ =>
                if pyIsWord d then some (base + 1, '.')
                else if boundaryAfterWord r7 then some (base, a) else none
              | [] =>
                if boundaryAfterWord r7 then some (base, a) else none
            | _ =>
              if boundaryAfterWord r7 then some (base, a) else none
          else none
      else none

/-- Match of the full `clean_cia_text` pattern
`(?i)\blinhas a[eé]reas\b(?:\s+(s\.?\s*/?\s*a\.?)\b)?` at the current
position (`withSuffix := false` gives the MaxMilhas variant's pattern,
which has no suffix group).  Returns total consumed length and the last
consumed character. -/
def matchLinhas (withSuffix : Bool) (prev : Option Char) (l : List Char) :
    Option (ℕ × Char) :=
  if boundaryBefore prev && ciPrefix linhasCore l then
    let rest := l.drop 13
    match (if withSuffix then linhasSuffix rest else none) with
    | some (k, last) => some (13 + k, last)
    | none => if boundaryAfterWord rest then some (13, 's') else none
  else none

/-- `re.sub` of the `linhas aéreas` pattern with `''`: non-overlapping
left-to-right scan; boundary checks of later matches read the original
characters, so the previous character is threaded through. -/
def subLinhas (withSuffix : Bool) : Option Char → List Char → List Char
  | _, [] => []
  | prev, c :: rest =>
    match _h : matchLinhas withSuffix prev (c :: rest) with
    | some (k, last) => subLinhas withSuffix (some last) ((c :: rest).drop k)
    | none => c :: subLinhas withSuffix (some c) rest
  termination_by _ l => l.length
  decreasing_by
    · simp only [List.length_drop]
      have hk : 13 ≤ k := by
        simp only [matchLinhas] at _h
        split at _h
        · split at _h
          · simp only [Option.some.injEq, Prod.mk.injEq] at _h
            omega
          · split at _h
            · simp only [Option.some.injEq, Prod.mk.injEq] at _h
              omega
            · exact absurd _h (by simp)
        · exact absurd _h (by simp)
      simp only [List.length_cons]
      omega
    · simp only [List.length_cons]; omega

/-- `re.sub(r'\s{2,}', ' ', s)`: replace each whitespace run of length at
least two by a single space; a lone whitespace character is kept as-is. -/
def collapseWs2 : List Char → List Char
  | [] => []
  | [c] => [c]
  | c :: d :: rest =>
    if pyIsSpace c && pyIsSpace d then
      ' ' :: collapseWs2 ((d :: rest).dropWhile pyIsSpace)
    else c :: collapseWs2 (d :: rest)
  termination_by l => l.length
  decreasing_by
    · have := dropWhile_length_le pyIsSpace (d :: rest)
      simp only [List.length_cons] at *; omega
    · simp only [List.length_cons]; omega

/-- The character set of `strip(" -–,.;:/\t\n\r")`. -/
def ciaStripSet (c : Char) : Bool :=
  c = ' ' || c = '-' || c = '–' || c = ',' || c = '.' || c = ';' ||
  c = ':' || c = '/' || c = '\t' || c = '\n' || c = '\x0d'

/-- `str.strip(chars)` with an explicit character set. -/
def pyStripSet (p : Char → Bool) (l : List Char) : List Char :=
  ((l.dropWhile p).reverse.dropWhile p).reverse

namespace Flip

/-- `clean_cia_text` from `flipmilhas_scraper_gha.py`. -/
def clean_cia_text (txt : Option String) : String :=
  match txt with
  | none => ""
  | some t =>
    if t.isEmpty then ""
    else
      let s1 := pyStrip t.toList
      let s2 := subLinhas true none s1
      let s3 := pyStripSet ciaStripSet (collapseWs2 s2)
      ⟨s3⟩

/-- `clean_cia_text` with the exception layer: it uses no raising
primitive, so it always returns normally. -/
def clean_cia_text_run (txt : Option String) : Except PyExc String :=
  .ok (clean_cia_text txt)

end Flip

namespace MaxM

/-- `clean_cia_text` from the MaxMilhas variant (no `s.a.` suffix group in
the regex, otherwise identical). -/
def clean_cia_text (txt : Option String) : String :=
  match txt with
  | none => ""
  | some t =>
    if t.isEmpty then ""
    else
      let s1 := pyStrip t.toList
      let s2 := subLinhas false none s1
      let s3 := pyStripSet ciaStripSet (collapseWs2 s2)
      ⟨s3⟩

end MaxM

/-- `re.sub(r'\s+', ' ', txt)`: replace every whitespace run by one space. -/
def collapseWs1 : List Char → List Char
  | [] => []
  | c :: rest =>
    if pyIsSpace c then ' ' :: collapseWs1 (rest.dropWhile pyIsSpace)
    else c :: collapseWs1 rest
  termination_by l => l.length
  decreasing_by
    · have := dropWhile_length_le pyIsSpace rest
      simp only [List.length_cons]; omega
    · simp only [List.length_cons]; omega

/-- ASCII letter test: `[A-Z]` under `re.IGNORECASE`. -/
def isAsciiLetter (c : Char) : Bool := c.isUpper || c.isLower

/-- `re.search(r'(?i)tarifa\s*([A-Z])\b', t)`: at each position, a
case-insensitive literal `tarifa`, a maximal whitespace run, one letter,
and a word boundary; the leftmost position wins. -/
def searchTarifaLetter : List Char → Option Char
  | [] => none
  | c :: rest =>
    let here : Option Char :=
      if ciPrefix ['t','a','r','i','f','a'] (c :: rest) then
        let r1 := (c :: rest).drop 6
        let w := r1.takeWhile pyIsSpace
        match r1.drop w.length with
        | g :: r2 => if isAsciiLetter g && boundaryAfterWord r2 then some g else none
        | [] => none
      else none
    match here with
    | some g => some g
    | none => searchTarifaLetter rest

/-- `re.findall(r'\b([A-Z])\b', t)`: all standalone uppercase ASCII
letters, in order. -/
def standaloneUppers : Option Char → List Char → List Char
  | _, [] => []
  | prev, c :: rest =>
    if boundaryBefore prev && c.isUpper && c.isAlpha && boundaryAfterWord rest then
      c :: standaloneUppers (some c) rest
    else standaloneUppers (some c) rest

namespace MaxM

/-- `extract_letra_tarifa` from the MaxMilhas variant. -/
def extract_letra_tarifa (txt : Option String) : Option Char :=
  match txt with
  | none => none
  | some t =>
    if t.isEmpty then none
    else
      let tl := pyStrip (collapseWs1 t.toList)
      match searchTarifaLetter tl with
      | some g => some g.toUpper
      | none =>
        match (standaloneUppers none tl).getLast? with
        | some g => some g.toUpper
        | none => none

/-- `extract_letra_tarifa` with the exception layer: no raising
primitive occurs in it. -/
def extract_letra_tarifa_run (txt : Option String) : Except PyExc (Option Char) :=
  .ok (extract_letra_tarifa txt)

end MaxM

/-! ## The wait/poll regexes of CapoViagens

`PRICE_RE = R\$\s*\d{1,3}(?:\.\d{3})*,\d{2}` and
`TIME_RE = \b\d{2}:\d{2}(?::\d{2})?\b`. -/

/-- Consume the greedy `(?:\.\d{3})*` repetition: number of groups taken
and the remaining input.  (Backtracking over the repetition can never make
the subsequent `,\d{2}` succeed, because each group starts with `'.'`,
never `','` — so the greedy deterministic consumption is faithful.) -/
def priceGroups : List Char → ℕ × List Char
  | '.' :: d1 :: d2 :: d3 :: rest =>
    if d1.isDigit && d2.isDigit && d3.isDigit then
      let p := priceGroups rest
      (p.1 + 1, p.2)
    else (0, '.' :: d1 :: d2 :: d3 :: rest)
  | l => (0, l)

/-- Match of `PRICE_RE` anchored at the head.  `some n` means a match of
length `n + 1` (so a successful match always consumes at least one
character). -/
def priceMatchHere (l : List Char) : Option ℕ :=
  match l with
  | 'R' :: '$' :: r1 =>
    let w := r1.takeWhile pyIsSpace
    let r2 := r1.drop w.length
    let ds := r2.takeWhile Char.isDigit
    if 1 ≤ ds.length && ds.length ≤ 3 then
      let gp := priceGroups (r2.drop ds.length)
      match gp.2 with
      | ',' :: e1 :: e2 :: _ =>
        if e1.isDigit && e2.isDigit then
          some (2 + w.length + ds.length + 4 * gp.1 + 3 - 1)
        else none
      | _ => none
    else none
  | _ => none

/-- `PRICE_RE.search(txt)` viewed as a Boolean: a match exists at some
position. -/
def hasPriceMatch : List Char → Bool
  | [] => false
  | c :: rest => (priceMatchHere (c :: rest)).isSome || hasPriceMatch rest

/-- Match of `TIME_RE` (with its two `\b` boundaries) anchored at the
current position, given the character just before it.  `some n` means a
match of length `n + 1`; the optional seconds group is greedy but backs
off when the final `\b` fails. -/
def timeMatchLenB (prev : Option Char) (l : List Char) : Option ℕ :=
  match l with
  | h1 :: h2 :: c :: m1 :: m2 :: rest =>
    if boundaryBefore prev && h1.isDigit && h2.isDigit && c = ':' &&
        m1.isDigit && m2.isDigit then
      match rest with
      | c2 :: s1 :: s2 :: r2 =>
        if c2 = ':' && s1.isDigit && s2.isDigit && boundaryAfterWord r2 then
          some 7
        else if boundaryAfterWord rest then some 4 else none
      | _ => if boundaryAfterWord rest then some 4 else none
    else none
  | _ => none

/-- `TIME_RE.search(txt)` viewed as a Boolean. -/
def hasTimeMatch : Option Char → List Char → Bool
  | _, [] => false
  | prev, c :: rest =>
    (timeMatchLenB prev (c :: rest)).isSome || hasTimeMatch (some c) rest

/-- `TIME_RE.findall(txt)`: matched substrings, non-overlapping, left to
right; later boundary checks see the original previous character. -/
def findTimes : Option Char → List Char → List (List Char)
  | _, [] => []
  | prev, c :: rest =>
    match timeMatchLenB prev (c :: rest) with
    | some n =>
      ((c :: rest).take (n + 1)) ::
        findTimes (((c :: rest).take (n + 1)).getLastD c) ((c :: rest).drop (n + 1))
    | none => findTimes (some c) rest
  termination_by _ l => l.length
  decreasing_by
    · simp only [List.length_drop, List.length_cons]; omega
    · simp only [List.length_cons]; omega

/-- `PRICE_RE.findall(txt)`: matched substrings (no boundaries in this
pattern, so no previous-character threading is needed). -/
def findPrices : List Char → List (List Char)
  | [] => []
  | c :: rest =>
    match priceMatchHere (c :: rest) with
    | some n => ((c :: rest).take (n + 1)) :: findPrices ((c :: rest).drop (n + 1))
    | none => findPrices rest
  termination_by l => l.length
  decreasing_by
    · simp only [List.length_drop, List.length_cons]; omega
    · simp only [List.length_cons]; omega

/-! ## The three wait/poll loops

Wall-clock time is measured in tenths of a second.  Each loop embeds the
Python `while time.time() - t0 < max_wait:` structure; the page is an
adversarial function from the current time to what the driver calls
observe, including how long each bounded element sub-wait takes.  The
loops are written with an iteration budget of `maxWait + 1`, which is
never exhausted because every iteration ends with `time.sleep(1)` (10
tenths), so at most `⌈maxWait/10⌉ + 1 ≤ maxWait + 1` iterations can start. -/

namespace Capo

/-- `wait_results_ready(driver, max_wait)`: each tick reads `//main`'s
text (`none` models the `find_element` call raising, which the
`except ... pass` swallows) and returns `True` as soon as `PRICE_RE` or
`TIME_RE` matches the stripped text; otherwise sleeps 1s.  Returns the
Python result together with the elapsed time at return. -/
def wait_results_ready_aux (m : ℕ) (page : ℕ → Option String) :
    ℕ → ℕ → Bool × ℕ
  | 0, t => (false, t)
  | fuel + 1, t =>
    if t < m then
      match page t with
      | some s =>
        let txt := pyStrip s.toList
        if hasPriceMatch txt || hasTimeMatch none txt then (true, t)
        else wait_results_ready_aux m page fuel (t + 10)
      | none => wait_results_ready_aux m page fuel (t + 10)
    else (false, t)

/-- `wait_results_ready` entered at time `0`. -/
def wait_results_ready (m : ℕ) (page : ℕ → Option String) : Bool × ℕ :=
  wait_results_ready_aux m page (m + 1) 0

end Capo

/-- One polling tick of FlipMilhas's wait as the page presents it: the
result and duration of the `WebDriverWait(driver, 1)` on the "no flights"
heading (`none` = `TimeoutException`), and of the two buy-button lookups. -/
structure FlipTick where
  noFlightsDur : ℕ
  noFlightsTxt : Option String
  buy1Dur : ℕ
  buy1 : Bool
  buy2Dur : ℕ
  buy2 : Bool

/-- The three-way outcome of FlipMilhas's
`wait_for_buy_button_or_no_flights` (the Python strings `"no_flights"`,
`"buy_ready"`, `"timeout"`). -/
inductive FlipStatus where
  | no_flights
  | buy_ready
  | timeout
  deriving DecidableEq, Repr

/-- Prefix test on character lists. -/
def listPrefixEq : List Char → List Char → Bool
  | [], _ => true
  | _ :: _, [] => false
  | p :: ps, c :: cs => p = c && listPrefixEq ps cs

/-- Python `pat in l` (substring containment). -/
def containsSub (pat : List Char) : List Char → Bool
  | [] => pat.isEmpty
  | c :: rest => listPrefixEq pat (c :: rest) || containsSub pat rest

/-- The pattern `"nenhum voo"` checked with `in` on the stripped,
lowered element text. -/
def nenhumVoo : List Char := ['n','e','n','h','u','m',' ','v','o','o']

namespace Flip

/-- `wait_for_buy_button_or_no_flights(driver, max_wait)`. -/
def wait_for_buy_button_or_no_flights_aux (m : ℕ) (page : ℕ → FlipTick) :
    ℕ → ℕ → FlipStatus × ℕ
  | 0, t => (.timeout, t)
  | fuel + 1, t =>
    if t < m then
      let tk := page t
      let t1 := t + tk.noFlightsDur
      let hit := match tk.noFlightsTxt with
        | some s => containsSub nenhumVoo ((pyStrip s.toList).map pyLower)
        | none => false
      if hit then (.no_flights, t1)
      else
        let t2 := t1 + tk.buy1Dur
        if tk.buy1 then (.buy_ready, t2)
        else
          let t3 := t2 + tk.buy2Dur
          if tk.buy2 then (.buy_ready, t3)
          else wait_for_buy_button_or_no_flights_aux m page fuel (t3 + 10)
    else (.timeout, t)

/-- `wait_for_buy_button_or_no_flights` entered at time `0`. -/
def wait_for_buy_button_or_no_flights (m : ℕ) (page : ℕ → FlipTick) :
    FlipStatus × ℕ :=
  wait_for_buy_button_or_no_flights_aux m page (m + 1) 0

end Flip

/-- One polling tick of the MaxMilhas wait: duration and result of the
`WebDriverWait(driver, 1.5)` on the main buy button, the
displayed-fallback-buttons check, and the "sem resultados" text check
(both plain `find_elements`, modeled as immediate). -/
structure MaxTick where
  buyDur : ℕ
  buyMain : Bool
  buyFall : Bool
  noRes : Bool

/-- The three-way outcome of MaxMilhas's `wait_buy_or_empty` (the Python
strings `"buy"`, `"empty"`, `"timeout"`). -/
inductive MaxStatus where
  | buy
  | empty
  | timeout
  deriving DecidableEq, Repr

namespace MaxM

/-- `wait_buy_or_empty(driver, max_wait)`. -/
def wait_buy_or_empty_aux (m : ℕ) (page : ℕ → MaxTick) :
    ℕ → ℕ → MaxStatus × ℕ
  | 0, t => (.timeout, t)
  | fuel + 1, t =>
    if t < m then
      let tk := page t
      let t1 := t + tk.buyDur
      if tk.buyMain then (.buy, t1)
      else if tk.buyFall then (.buy, t1)
      else if tk.noRes then (.empty, t1)
      else wait_buy_or_empty_aux m page fuel (t1 + 10)
    else (.timeout, t)

/-- `wait_buy_or_empty` entered at time `0`. -/
def wait_buy_or_empty (m : ℕ) (page : ℕ → MaxTick) : MaxStatus × ℕ :=
  wait_buy_or_empty_aux m page (m + 1) 0

end MaxM

/-! ## Dates and `parse_datetime_br` (FlipMilhas) -/

/-- A calendar date. -/
structure DateD where
  year : ℕ
  month : ℕ
  day : ℕ
  deriving DecidableEq, Repr

/-- A datetime value. -/
structure DateTimeD where
  year : ℕ
  month : ℕ
  day : ℕ
  hour : ℕ
  minute : ℕ
  second : ℕ
  deriving DecidableEq, Repr

/-- `.date()` of a datetime. -/
def DateTimeD.dateOf (dt : DateTimeD) : DateD := ⟨dt.year, dt.month, dt.day⟩

/-- `.time()` of a datetime. -/
def DateTimeD.timeOf (dt : DateTimeD) : TimeOfDay := ⟨dt.hour, dt.minute, dt.second⟩

/-- Gregorian leap-year rule (as `calendar.isleap` / `datetime`). -/
def isLeap (y : ℕ) : Bool := (y % 4 = 0 && y % 100 ≠ 0) || y % 400 = 0

/-- Days in a month. -/
def daysInMonth (y m : ℕ) : ℕ :=
  if m = 2 then (if isLeap y then 29 else 28)
  else if m = 4 ∨ m = 6 ∨ m = 9 ∨ m = 11 then 30
  else 31

/-- `datetime.datetime(y, mth, d, hh, mm, ss)` with its `ValueError`
range checks (`MINYEAR = 1`, `MAXYEAR = 9999`). -/
def pyDatetimeE (y mth d hh mm ss : ℕ) : Except PyExc DateTimeD :=
  if 1 ≤ y ∧ y ≤ 9999 ∧ 1 ≤ mth ∧ mth ≤ 12 ∧ 1 ≤ d ∧ d ≤ daysInMonth y mth ∧
      hh ≤ 23 ∧ mm ≤ 59 ∧ ss ≤ 59 then
    .ok ⟨y, mth, d, hh, mm, ss⟩
  else .error .valueError

/-- Match of `(\d{2})/(\d{2})/(\d{4})\s+(\d{2}):(\d{2})(?::(\d{2}))?`
anchored at the head: groups `(d, mth, y, hh, mm, ss)` with `ss`
defaulted to `0`. -/
def dtFullMatchHere : List Char → Option (ℕ × ℕ × ℕ × ℕ × ℕ × ℕ)
  | d1 :: d2 :: sl1 :: n1 :: n2 :: sl2 :: y1 :: y2 :: y3 :: y4 :: rest =>
    if d1.isDigit && d2.isDigit && sl1 = '/' && n1.isDigit && n2.isDigit &&
        sl2 = '/' && y1.isDigit && y2.isDigit && y3.isDigit && y4.isDigit then
      let w := rest.takeWhile pyIsSpace
      if w.isEmpty then none
      else
        match timeMatchHere (rest.drop w.length) with
        | some (hh, mm, ss) =>
          some (twoDigits d1 d2, twoDigits n1 n2,
                100 * twoDigits y1 y2 + twoDigits y3 y4, hh, mm, ss)
        | none => none
    else none
  | _ => none

/-- `re.search` of the full date-time pattern. -/
def searchDtFull : List Char → Option (ℕ × ℕ × ℕ × ℕ × ℕ × ℕ)
  | [] => none
  | c :: rest =>
    match dtFullMatchHere (c :: rest) with
    | some r => some r
    | none => searchDtFull rest

/-- Match of `(\d{2})/(\d{2})\s+(\d{2}):(\d{2})(?::(\d{2}))?` anchored at
the head: groups `(d, mth, hh, mm, ss)`. -/
def dtShortMatchHere : List Char → Option (ℕ × ℕ × ℕ × ℕ × ℕ)
  | d1 :: d2 :: sl1 :: n1 :: n2 :: rest =>
    if d1.isDigit && d2.isDigit && sl1 = '/' && n1.isDigit && n2.isDigit then
      let w := rest.takeWhile pyIsSpace
      if w.isEmpty then none
      else
        match timeMatchHere (rest.drop w.length) with
        | some (hh, mm, ss) => some (twoDigits d1 d2, twoDigits n1 n2, hh, mm, ss)
        | none => none
    else none
  | _ => none

/-- `re.search` of the short date-time pattern. -/
def searchDtShort : List Char → Option (ℕ × ℕ × ℕ × ℕ × ℕ)
  | [] => none
  | c :: rest =>
    match dtShortMatchHere (c :: rest) with
    | some r => some r
    | none => searchDtShort rest

namespace Flip

/-- `parse_datetime_br` from `flipmilhas_scraper_gha.py`: tries, in order,
`dd/mm/yyyy hh:mm[:ss]`, `dd/mm hh:mm[:ss]` (needs a fallback date) and
`hh:mm[:ss]` (needs a fallback date); a matched pattern whose values fail
`datetime`'s range check returns `None` without trying later patterns. -/
def parse_datetime_br (txt : Option String) (fallback_date : Option DateD) :
    Option DateTimeD :=
  match txt with
  | none => none
  | some t =>
    if t.isEmpty then none
    else
      let l := pyStrip t.toList
      match searchDtFull l with
      | some (d, mth, y, hh, mm, ss) =>
        match pyDatetimeE y mth d hh mm ss with
        | .ok v => some v
        | .error _ => none
      | none =>
        match searchDtShort l, fallback_date with
        | some (d, mth, hh, mm, ss), some fb =>
          match pyDatetimeE fb.year mth d hh mm ss with
          | .ok v => some v
          | .error _ => none
        | _, _ =>
          match searchHHMMSS l, fallback_date with
          | some (hh, mm, ss), some fb =>
            match pyDatetimeE fb.year fb.month fb.day hh mm ss with
            | .ok v => some v
            | .error _ => none
          | _, _ => none

end Flip

/-! ## Row builders (`processar_trecho_advp`) -/

/-- Truthiness of a Python `Optional[Decimal]`: `None` and `Decimal(0)`
are falsy. -/
def decTruthy : Option ℚ → Bool
  | none => false
  | some q => decide (q ≠ 0)

/-- `a or b` on Python `Optional[Decimal]` values. -/
def pyOrDec (a b : Option ℚ) : Option ℚ :=
  if decTruthy a then a else b

namespace Flip

/-- The `total_val` expression of FlipMilhas's success path:
`(tarifa_val or Decimal(0)) + (taxa_val or Decimal(0))
 if (tarifa_val or taxa_val) else None`. -/
def flipTotalVal (tarifa_val taxa_val : Option ℚ) : Option ℚ :=
  if decTruthy (pyOrDec tarifa_val taxa_val) then
    some ((pyOrDec tarifa_val (some 0)).getD 0 + (pyOrDec taxa_val (some 0)).getD 0)
  else none

/-- The texts extracted on FlipMilhas's second page (each the result of a
`wait_text_retry`, `None` when every retry came back empty). -/
structure FlipExtract where
  partidaTxt : Option String
  chegadaTxt : Option String
  tarifaTxt : Option String
  taxaTxt : Option String
  ciaTxt : Option String

/-- The fare columns of the row FlipMilhas appends (search metadata
columns, which are never null, are omitted). -/
structure FlipRow where
  trecho : String
  dataPartida : Option DateD
  horaPartida : Option TimeOfDay
  dataChegada : Option DateD
  horaChegada : Option TimeOfDay
  tarifa : Option ℚ
  txEmbarque : Option ℚ
  total : Option ℚ
  cia : String
  deriving DecidableEq, Repr

/-- The sentinel row of the FlipMilhas failure paths. -/
def sentinelRow (trecho : String) : FlipRow :=
  ⟨trecho, none, none, none, none, none, none, none, "Sem Ofertas"⟩

/-- `processar_trecho_advp` from `flipmilhas_scraper_gha.py`, from the
wait outcome on: on `no_flights`/`timeout`, and when the buy click fails,
the sentinel row is appended; otherwise fields are extracted from the
second page and normalized. -/
def processar_trecho_advp (dataVoo : DateD) (trecho : String)
    (status : FlipStatus) (clickOk : Bool) (ex : FlipExtract) : FlipRow :=
  if status = .no_flights ∨ status = .timeout then sentinelRow trecho
  else if !clickOk then sentinelRow trecho
  else
    let partida_dt := parse_datetime_br ex.partidaTxt (some dataVoo)
    let chegada_dt := parse_datetime_br ex.chegadaTxt (some dataVoo)
    let tarifa_val := brl_to_decimal ex.tarifaTxt
    let taxa_val := brl_to_decimal ex.taxaTxt
    let total_val := flipTotalVal tarifa_val taxa_val
    let cia0 := clean_cia_text ex.ciaTxt
    let cia_clean :=
      if !cia0.isEmpty then cia0
      else if tarifa_val = none ∧ taxa_val = none then "Sem Ofertas" else ""
    { trecho := trecho
      dataPartida := partida_dt.map DateTimeD.dateOf
      horaPartida := partida_dt.map DateTimeD.timeOf
      dataChegada := chegada_dt.map DateTimeD.dateOf
      horaChegada := chegada_dt.map DateTimeD.timeOf
      tarifa := tarifa_val
      txEmbarque := taxa_val
      total := total_val
      cia := cia_clean }

end Flip

namespace Capo

/-- The first visible card as the driver exposes it: the six
`text_or_inner` results and the card's `innerText` (`none` models the
`get_attribute` call raising). -/
structure CapoCard where
  partidaTxt : Option String
  chegadaTxt : Option String
  tarifaTxt : Option String
  txEmbTxt : Option String
  totalTxt : Option String
  ciaTxt : Option String
  innerText : Option String

/-- `regex_from_inner_text(el)`: the `partida`/`chegada`/`qualquer_preco`
entries of the returned dict (`none` = key absent). -/
def regex_from_inner_text (innerText : Option String) :
    Option String × Option String × Option String :=
  match innerText with
  | none => (none, none, none)
  | some s =>
    let txt := pyStrip s.toList
    let times := findTimes none txt
    let prices := findPrices txt
    let partida : Option String :=
      match times with
      | t0 :: _ => some ⟨t0 ++ (if t0.length = 5 then [':','0','0'] else [])⟩
      | [] => none
    let chegada : Option String :=
      match times with
      | _ :: t1 :: _ => some ⟨t1 ++ (if t1.length = 5 then [':','0','0'] else [])⟩
      | _ => none
    let preco : Option String :=
      match prices with
      | p0 :: _ => some ⟨p0⟩
      | [] => none
    (partida, chegada, preco)

/-- The fare columns of the row CapoViagens appends (search metadata
columns omitted; `DATA PARTIDA`/`DATA CHEGADA` are always the searched
flight date). -/
structure CapoRow where
  trecho : String
  dataPartida : DateD
  horaPartida : Option TimeOfDay
  dataChegada : DateD
  horaChegada : Option TimeOfDay
  tarifa : Option ℚ
  txEmb : Option ℚ
  total : Option ℚ
  cia : String
  deriving DecidableEq, Repr

/-- The sentinel row of the CapoViagens failure paths. -/
def sentinelRow (dataVoo : DateD) (trecho : String) : CapoRow :=
  ⟨trecho, dataVoo, none, dataVoo, none, none, none, none, "Sem Ofertas"⟩

/-- `processar_trecho_advp` from `capoviagens_scraper_gha.py`, from the
wait outcome on: sentinel row when `wait_results_ready` returned `False`
or no card was found; otherwise the card texts, with the
`regex_from_inner_text` fallback, are normalized into the row. -/
def processar_trecho_advp (dataVoo : DateD) (trecho : String)
    (ok : Bool) (card : Option CapoCard) : CapoRow :=
  if !ok then sentinelRow dataVoo trecho
  else
    match card with
    | none => sentinelRow dataVoo trecho
    | some cd =>
      let hp0 := cd.partidaTxt
      let hc0 := cd.chegadaTxt
      let tf0 := cd.tarifaTxt
      let te0 := cd.txEmbTxt
      let tt0 := cd.totalTxt
      let needFb :=
        !(strTruthy hp0 && strTruthy tt0 && (strTruthy tf0 || strTruthy te0))
      let parsed := regex_from_inner_text cd.innerText
      let hp1 := if needFb then pyOrStr hp0 parsed.1 else hp0
      let hc1 := if needFb then pyOrStr hc0 parsed.2.1 else hc0
      let anyp := parsed.2.2
      let tf1 :=
        if needFb && !(strTruthy tf0 || strTruthy tt0) then pyOrStr tf0 anyp else tf0
      let tt1 :=
        if needFb && !(strTruthy tf0 || strTruthy tt0) then pyOrStr tt0 anyp else tt0
      let hora_partida := hhmm_to_time hp1
      let hora_chegada := hhmm_to_time hc1
      let tarifa_val := brl_to_float tf1
      let tx_emb_val := brl_to_float te0
      let total_val := brl_to_float tt1
      let cia_clean : String := ⟨pyStrip (((pyOrStr cd.ciaTxt (some "")).getD "").toList)⟩
      { trecho := trecho
        dataPartida := dataVoo
        horaPartida := hora_partida
        dataChegada := dataVoo
        horaChegada := hora_chegada
        tarifa := tarifa_val
        txEmb := tx_emb_val
        total := total_val
        cia := cia_clean }

end Capo

/-! ## Spreadsheet sink (`ensure_workbook`) -/

/-- A spreadsheet cell value. -/
inductive Cell where
  | str (s : String)
  | qnum (q : ℚ)
  | tod (t : TimeOfDay)
  | dateC (d : DateD)
  | empty
  deriving DecidableEq, Repr

/-- A worksheet: its name and its rows (row 1 first). -/
structure Sheet where
  name : String
  rows : List (List Cell)
  deriving DecidableEq, Repr

/-- A workbook: its sheets in order. -/
structure Workbook where
  sheets : List Sheet
  deriving DecidableEq, Repr

/-- The on-disk state `ensure_workbook` inspects: the file may be absent,
present but not a valid `.xlsx` (the `[Content_Types].xml` zip-marker
check of `_is_valid_xlsx` fails), or a valid workbook. -/
inductive FileState where
  | absent
  | invalid
  | valid (wb : Workbook)
  deriving DecidableEq, Repr

/-- The shared 11-column header of the Capo/Flip variants. -/
def HEADERS : List Cell :=
  [.str "DATA DA BUSCA", .str "HORA DA BUSCA", .str "TRECHO",
   .str "DATA PARTIDA", .str "HORA DA PARTIDA", .str "DATA CHEGADA",
   .str "HORA DA CHEGADA", .str "TARIFA", .str "TX DE EMBARQUE",
   .str "TOTAL", .str "CIA DO VOO"]

/-- `_create_new_workbook(path)`: a fresh workbook whose single (active)
sheet carries the given name and the header row (column widths and
alignment are display-only and not modeled). -/
def create_new_workbook (sheetName : String) (headers : List Cell) : Workbook :=
  ⟨[⟨sheetName, [headers]⟩]⟩

/-- `ensure_workbook(path)`: create a fresh workbook when the file is
absent or not a valid `.xlsx`; otherwise load it and, only when the named
sheet is missing, append a new sheet holding the header row (then save);
when the sheet exists the workbook is closed without saving, leaving the
file unchanged. -/
def ensure_workbook (sheetName : String) (headers : List Cell) :
    FileState → FileState
  | .absent => .valid (create_new_workbook sheetName headers)
  | .invalid => .valid (create_new_workbook sheetName headers)
  | .valid wb =>
    if wb.sheets.any (fun sh => sh.name = sheetName) then .valid wb
    else .valid ⟨wb.sheets ++ [⟨sheetName, [headers]⟩]⟩

/-- The sheets visible in a file state. -/
def FileState.sheetsOf : FileState → List Sheet
  | .absent => []
  | .invalid => []
  | .valid wb => wb.sheets

/-! ## Orchestrator loop (`ciclo`) -/

/-- The route list shared by all variants. -/
def TRECHOS : List (String × String) :=
  [("CGH", "SDU"), ("SDU", "CGH"),
   ("GRU", "POA"), ("POA", "GRU"),
   ("CGH", "GIG"), ("GIG", "CGH"),
   ("BSB", "CGH"), ("CGH", "BSB"),
   ("CGH", "REC"), ("REC", "CGH"),
   ("CGH", "SSA"), ("SSA", "CGH"),
   ("BSB", "GIG"), ("GIG", "BSB"),
   ("GIG", "REC"), ("REC", "GIG"),
   ("GIG", "SSA"), ("SSA", "GIG"),
   ("BSB", "SDU"), ("SDU", "BSB")]

/-- The advance-purchase day list shared by all variants. -/
def ADVP_LIST : List ℕ := [1, 3, 7, 14, 21, 30, 60, 90]

/-- The iteration order of the nested `for trecho: for advp:` loops. -/
def allCombos : List ((String × String) × ℕ) :=
  TRECHOS.flatMap (fun tr => ADVP_LIST.map (fun a => (tr, a)))

/-- One `ciclo` pass over a combination list: each iteration runs the
per-search behavior (`processar_trecho_advp` / `run_one_search`, which
may update the base tab handle or raise) inside
`try: ... except Exception as e: logging.exception(...)`; a raised
exception is recorded in the log and the loop continues with the base tab
unchanged.  Returns the log (one entry per combination, in order) and the
final tab handle. -/
def ciclo_aux (beh : (String × String) → ℕ → ℕ → Except PyExc ℕ) :
    List ((String × String) × ℕ) → ℕ →
    List (((String × String) × ℕ) × Option PyExc) × ℕ
  | [], tab => ([], tab)
  | p :: rest, tab =>
    match beh p.1 p.2 tab with
    | .ok tab2 =>
      let r := ciclo_aux beh rest tab2
      ((p, none) :: r.1, r.2)
    | .error e =>
      let r := ciclo_aux beh rest tab
      ((p, some e) :: r.1, r.2)

/-- `ciclo()` over the full `TRECHOS × ADVP_LIST` matrix. -/
def ciclo (beh : (String × String) → ℕ → ℕ → Except PyExc ℕ) (tab : ℕ) :
    List (((String × String) × ℕ) × Option PyExc) × ℕ :=
  ciclo_aux beh allCombos tab

/-! ## The claim-side Brazilian currency rendering (for the round-trip
property) -/

/-- Least-significant-first decimal digit characters of a positive
natural, with an explicit fuel (any `fuel ≥ n` is enough). -/
def natDigitsAux : ℕ → ℕ → List Char
  | 0, _ => []
  | fuel + 1, n => if n = 0 then [] else digitChar (n % 10) :: natDigitsAux fuel (n / 10)

/-- Most-significant-first decimal digit characters of a natural. -/
def natToChars (n : ℕ) : List Char :=
  if n = 0 then ['0'] else (natDigitsAux n n).reverse

/-- Insert a `'.'` after every three characters of a
least-significant-first digit list when more digits follow. -/
def insertDots : List Char → List Char
  | a :: b :: c :: d :: rest => a :: b :: c :: '.' :: insertDots (d :: rest)
  | l => l

/-- Group a most-significant-first digit string with `'.'` thousands
separators. -/
def groupThousands (l : List Char) : List Char := (insertDots l.reverse).reverse

/-- The Brazilian currency text of a value of `cents` centavos, as the
claim describes it: `"R$ "`, the integer part with `'.'` thousands
separators, `','`, and two fractional digits. -/
def formatBRL (cents : ℕ) : String :=
  ⟨['R', '$', ' '] ++ groupThousands (natToChars (cents / 100)) ++ [','] ++
    [digitChar (cents % 100 / 10), digitChar (cents % 10)]⟩

/-! ## Digit and rendering lemmas -/

theorem digitChar_isDigit {d : ℕ} (h : d < 10) : (digitChar d).isDigit = true := by
  interval_cases d <;> decide

theorem digitVal_digitChar {d : ℕ} (h : d < 10) : digitVal (digitChar d) = d := by
  interval_cases d <;> decide

theorem digitChar_ne_dot {d : ℕ} (h : d < 10) : digitChar d ≠ '.' := by
  interval_cases d <;> decide

theorem digitChar_ne_comma {d : ℕ} (h : d < 10) : digitChar d ≠ ',' := by
  interval_cases d <;> decide

theorem digitChar_not_space {d : ℕ} (h : d < 10) : pyIsSpace (digitChar d) = false := by
  interval_cases d <;> decide

theorem digitChar_not_word_eq {d : ℕ} (h : d < 10) : pyIsWord (digitChar d) = true := by
  interval_cases d <;> decide

/-- `digitsVal` of a snoc extends by one digit. -/
theorem digitsVal_concat (l : List Char) (c : Char) :
    digitsVal (l ++ [c]) = 10 * digitsVal l + digitVal c := by
  simp [digitsVal, List.foldl_append]

/-- `digitsVal` of the reversed fuel-rendered digit list recovers the
number, for sufficient fuel. -/
theorem digitsVal_natDigitsAux (fuel : ℕ) :
    ∀ n ≤ fuel, digitsVal ((natDigitsAux fuel n).reverse) = n := by
  induction fuel with
  | zero =>
    intro n hn
    interval_cases n
    simp [natDigitsAux, digitsVal]
  | succ fuel ih =>
    intro n hn
    by_cases h : n = 0
    · subst h; simp [natDigitsAux, digitsVal]
    · have hrec : n / 10 ≤ fuel := by
        have := Nat.div_lt_self (Nat.pos_of_ne_zero h) (by norm_num : (1:ℕ) < 10)
        omega
      have hmod : n % 10 < 10 := Nat.mod_lt _ (by norm_num)
      simp only [natDigitsAux, if_neg h, List.reverse_cons, digitsVal_concat,
        ih _ hrec, digitVal_digitChar hmod]
      omega

theorem digitsVal_natToChars (n : ℕ) : digitsVal (natToChars n) = n := by
  by_cases h : n = 0
  · subst h; decide
  · simp only [natToChars, if_neg h]
    exact digitsVal_natDigitsAux n n (Nat.le_refl n)

theorem natDigitsAux_all_digit (fuel : ℕ) :
    ∀ n, ∀ c ∈ natDigitsAux fuel n, c.isDigit = true := by
  induction fuel with
  | zero => intro n c hc; simp [natDigitsAux] at hc
  | succ fuel ih =>
    intro n c hc
    by_cases h : n = 0
    · subst h; simp [natDigitsAux] at hc
    · simp only [natDigitsAux, if_neg h, List.mem_cons] at hc
      rcases hc with rfl | hc
      · exact digitChar_isDigit (Nat.mod_lt _ (by norm_num))
      · exact ih _ c hc

theorem natToChars_all_digit (n : ℕ) :
    ∀ c ∈ natToChars n, c.isDigit = true := by
  intro c hc
  by_cases h : n = 0
  · subst h
    have h0 : natToChars 0 = ['0'] := rfl
    rw [h0, List.mem_singleton] at hc
    subst hc; decide
  · simp only [natToChars, if_neg h, List.mem_reverse] at hc
    exact natDigitsAux_all_digit n n c hc

theorem natToChars_ne_nil (n : ℕ) : natToChars n ≠ [] := by
  by_cases h : n = 0
  · subst h; decide
  · simp only [natToChars, if_neg h, ne_eq, List.reverse_eq_nil_iff]
    cases fn : n with
    | zero => exact absurd fn h
    | succ k =>
      simp only [natDigitsAux, if_neg h]
      exact fun hcon => List.cons_ne_nil _ _ hcon

/-- Characters of `insertDots l` are characters of `l` or `'.'`. -/
theorem mem_insertDots {c : Char} {l : List Char} (h : c ∈ insertDots l) :
    c ∈ l ∨ c = '.' := by
  induction l using insertDots.induct with
  | case1 a b c2 d rest ih =>
    simp only [insertDots, List.mem_cons] at h
    rcases h with rfl | rfl | rfl | h
    · exact Or.inl (by simp)
    · exact Or.inl (by simp)
    · exact Or.inl (by simp)
    · rcases h with rfl | h
      · exact Or.inr rfl
      · rcases ih h with h2 | h2
        · exact Or.inl (by simp only [List.mem_cons] at h2 ⊢; tauto)
        · exact Or.inr h2
  | case2 l hne =>
    rw [insertDots.eq_def] at h
    split at h
    · exact absurd rfl (hne _ _ _ _ _)
    · exact Or.inl h

/-- Removing the dots of `insertDots l` recovers a dotless `l`. -/
theorem filter_insertDots (l : List Char) (hl : ∀ c ∈ l, c ≠ '.') :
    (insertDots l).filter (fun c => c ≠ '.') = l := by
  induction l using insertDots.induct with
  | case1 a b c2 d rest ih =>
    have ha : (a : Char) ≠ '.' := hl a (by simp)
    have hb : (b : Char) ≠ '.' := hl b (by simp)
    have hc : (c2 : Char) ≠ '.' := hl c2 (by simp)
    have hrest : ∀ x ∈ (d :: rest), x ≠ '.' := fun x hx =>
      hl x (by simp only [List.mem_cons] at hx ⊢; tauto)
    simp only [insertDots, List.filter_cons]
    rw [if_pos (by simpa using ha), if_pos (by simpa using hb),
      if_pos (by simpa using hc), if_neg (by simp), ih hrest]
  | case2 l hne =>
    rw [insertDots.eq_def]
    split
    · exact absurd rfl (hne _ _ _ _ _)
    · exact List.filter_eq_self.mpr (fun c hc => by simpa using hl c hc)

/-- `splitAtDot` on a dotless prefix followed by a dot. -/
theorem splitAtDot_append (a b : List Char) (ha : ∀ c ∈ a, c ≠ '.') :
    splitAtDot (a ++ '.' :: b) = (a, some b) := by
  induction a with
  | nil => simp [splitAtDot]
  | cons c a ih =>
    have hc : c ≠ '.' := ha c (by simp)
    have ha2 : ∀ x ∈ a, x ≠ '.' := fun x hx => ha x (by simp [hx])
    simp [splitAtDot, hc, ih ha2]

theorem map_id_of_mem {α : Type} (f : α → α) (l : List α)
    (h : ∀ a ∈ l, f a = a) : l.map f = l := by
  induction l with
  | nil => rfl
  | cons a l ih =>
    simp only [List.map_cons, h a (by simp), ih (fun x hx => h x (by simp [hx]))]

theorem mk_cons_isEmpty_false (c : Char) (l : List Char) :
    (String.mk (c :: l)).isEmpty = false := by
  have h := Char.utf8Size_pos c
  simp only [String.isEmpty, String.endPos, String.utf8ByteSize, String.utf8Len_cons]
  rw [beq_eq_false_iff_ne]
  intro hcon
  have h2 : String.utf8Len l + c.utf8Size = 0 := congrArg String.Pos.byteIdx hcon
  omega

theorem groupThousands_mem {c : Char} {l : List Char}
    (h : c ∈ groupThousands l) : c ∈ l ∨ c = '.' := by
  simp only [groupThousands, List.mem_reverse] at h
  rcases mem_insertDots h with h2 | h2
  · exact Or.inl (List.mem_reverse.mp h2)
  · exact Or.inr h2

theorem filter_groupThousands (l : List Char) (hl : ∀ c ∈ l, c ≠ '.') :
    (groupThousands l).filter (fun c => c ≠ '.') = l := by
  simp only [groupThousands, List.filter_reverse]
  rw [filter_insertDots _ (fun c hc => hl c (List.mem_reverse.mp hc))]
  exact List.reverse_reverse l

/-- The cleanup pipeline undoes the claim's Brazilian-currency rendering,
leaving plain digits with a single decimal dot. -/
theorem brlClean_formatBRL (cents : ℕ) :
    brlClean (formatBRL cents) =
      natToChars (cents / 100) ++
        '.' :: [digitChar (cents % 100 / 10), digitChar (cents % 10)] := by
  have hA : ∀ c ∈ natToChars (cents / 100), c.isDigit = true :=
    natToChars_all_digit _
  have hAdot : ∀ c ∈ natToChars (cents / 100), c ≠ '.' := by
    intro c hc heq; subst heq; exact absurd (hA _ hc) (by decide)
  have hAcm : ∀ c ∈ natToChars (cents / 100), c ≠ ',' := by
    intro c hc heq; subst heq; exact absurd (hA _ hc) (by decide)
  have hd1 : cents % 100 / 10 < 10 := by omega
  have hd2 : cents % 10 < 10 := Nat.mod_lt _ (by norm_num)
  have htl : (formatBRL cents).toList =
      (['R', '$', ' '] ++ groupThousands (natToChars (cents / 100))) ++ [','] ++
        [digitChar (cents % 100 / 10), digitChar (cents % 10)] := rfl
  unfold brlClean
  rw [htl]
  have h1 : (['R', '$', ' '] : List Char).filter
      (fun c => c.isDigit || c = ',' || c = '.') = [] := by decide
  have h2 : (groupThousands (natToChars (cents / 100))).filter
      (fun c => c.isDigit || c = ',' || c = '.') =
        groupThousands (natToChars (cents / 100)) := by
    apply List.filter_eq_self.mpr
    intro c hc
    rcases groupThousands_mem hc with h | h
    · simp [hA c h]
    · subst h; decide
  have h3 : ([','] : List Char).filter
      (fun c => c.isDigit || c = ',' || c = '.') = [','] := by decide
  have h4 : ([digitChar (cents % 100 / 10), digitChar (cents % 10)]).filter
      (fun c => c.isDigit || c = ',' || c = '.') =
        [digitChar (cents % 100 / 10), digitChar (cents % 10)] := by
    apply List.filter_eq_self.mpr
    intro c hc
    simp only [List.mem_cons, List.not_mem_nil, or_false] at hc
    rcases hc with rfl | rfl
    · simp [digitChar_isDigit hd1]
    · simp [digitChar_isDigit hd2]
  simp only [List.filter_append, h1, h2, h3, h4, List.nil_append]
  have h5 : (groupThousands (natToChars (cents / 100))).filter
      (fun c => c ≠ '.') = natToChars (cents / 100) :=
    filter_groupThousands _ hAdot
  have h6 : ([','] : List Char).filter (fun c => c ≠ '.') = [','] := by decide
  have h7 : ([digitChar (cents % 100 / 10), digitChar (cents % 10)]).filter
      (fun c => c ≠ '.') =
        [digitChar (cents % 100 / 10), digitChar (cents % 10)] := by
    apply List.filter_eq_self.mpr
    intro c hc
    simp only [List.mem_cons, List.not_mem_nil, or_false] at hc
    rcases hc with rfl | rfl
    · simp [digitChar_ne_dot hd1]
    · simp [digitChar_ne_dot hd2]
  simp only [List.filter_append, h5, h6, h7]
  have h8 : (natToChars (cents / 100)).map (fun c => if c = ',' then '.' else c) =
      natToChars (cents / 100) := by
    apply map_id_of_mem
    intro c hc
    simp [hAcm c hc]
  have h9 : ([','] : List Char).map (fun c => if c = ',' then '.' else c) = ['.'] := by
    decide
  have h10 : ([digitChar (cents % 100 / 10), digitChar (cents % 10)]).map
      (fun c => if c = ',' then '.' else c) =
        [digitChar (cents % 100 / 10), digitChar (cents % 10)] := by
    simp [digitChar_ne_comma hd1, digitChar_ne_comma hd2]
  simp only [List.map_append, h8, h9, h10]
  simp

/-- Full round trip: the cleanup pipeline plus numeric parse recover the
exact value from the rendered Brazilian currency text. -/
theorem parseNumParts_formatBRL (cents : ℕ) :
    parseNumParts (brlClean (formatBRL cents)) =
      some (cents / 100, cents % 100, 2) := by
  have hA := natToChars_all_digit (cents / 100)
  have hAdot : ∀ c ∈ natToChars (cents / 100), c ≠ '.' := by
    intro c hc heq; subst heq; exact absurd (hA _ hc) (by decide)
  have hd1 : cents % 100 / 10 < 10 := by omega
  have hd2 : cents % 10 < 10 := Nat.mod_lt _ (by norm_num)
  rw [brlClean_formatBRL]
  simp only [parseNumParts, splitAtDot_append _ _ hAdot]
  rw [if_pos]
  · have hBval : digitsVal [digitChar (cents % 100 / 10), digitChar (cents % 10)] =
        10 * (cents % 100 / 10) + cents % 10 := by
      simp [digitsVal, digitVal_digitChar hd1, digitVal_digitChar hd2]
    rw [digitsVal_natToChars, hBval]
    have hmod : 10 * (cents % 100 / 10) + cents % 10 = cents % 100 := by omega
    rw [hmod]
    rfl
  · refine ⟨Or.inl (natToChars_ne_nil _), ?_, ?_, ?_⟩
    · exact List.all_eq_true.mpr (fun c hc => hA c hc)
    · refine List.all_eq_true.mpr (fun c hc => ?_)
      simp only [List.mem_cons, List.not_mem_nil, or_false] at hc
      rcases hc with rfl | rfl
      · exact digitChar_isDigit hd1
      · exact digitChar_isDigit hd2
    · intro hmem
      simp only [List.mem_cons, List.not_mem_nil, or_false] at hmem
      rcases hmem with h | h
      · exact digitChar_ne_dot hd1 h.symm
      · exact digitChar_ne_dot hd2 h.symm

theorem parseNumStr_formatBRL (cents : ℕ) :
    parseNumStr (brlClean (formatBRL cents)) = some ((cents : ℚ) / 100) := by
  rw [parseNumStr, parseNumParts_formatBRL cents]
  show some (partsVal (cents / 100, cents % 100, 2)) = some ((cents : ℚ) / 100)
  congr 1
  have h := Nat.div_add_mod cents 100
  have hq : (cents : ℚ) = 100 * ((cents / 100 : ℕ) : ℚ) + ((cents % 100 : ℕ) : ℚ) := by
    exact_mod_cast h.symm
  simp only [partsVal]
  rw [hq]
  ring_nf

/-- `parseNumStr` rejects a string consisting only of dots. -/
theorem parseNumStr_all_dots (l : List Char) (h : ∀ c ∈ l, c = '.') :
    parseNumStr l = none := by
  rw [parseNumStr]
  suffices hp : parseNumParts l = none by rw [hp]; rfl
  cases l with
  | nil => simp [parseNumParts, splitAtDot]
  | cons c rest =>
    have hc : c = '.' := h c (by simp)
    subst hc
    have hsplit : splitAtDot ('.' :: rest) = ([], some rest) := by
      simp [splitAtDot]
    simp only [parseNumParts, hsplit]
    rw [if_neg]
    rintro ⟨h1, _h2, h3, h4⟩
    cases rest with
    | nil => rcases h1 with h1 | h1 <;> exact h1 rfl
    | cons d rest2 =>
      have hd : d = '.' := h d (by simp)
      exact h4 (by simp [hd])

/-- When the input has no digit at all, everything the cleanup pipeline
keeps is a dot. -/
theorem brlClean_all_dots (t : String) (hg : ∀ c ∈ t.toList, c.isDigit = false) :
    ∀ c ∈ brlClean t, c = '.' := by
  intro c hc
  simp only [brlClean, List.mem_map, List.mem_filter] at hc
  obtain ⟨d, ⟨⟨hd1, hd2⟩, hd3⟩, rfl⟩ := hc
  have hnd : d.isDigit = false := hg d hd1
  simp only [hnd, Bool.false_or, Bool.or_eq_true, decide_eq_true_eq] at hd2
  simp only [ne_eq, decide_not, Bool.not_eq_eq_eq_not, Bool.not_true,
    decide_eq_false_iff_not] at hd3
  rcases hd2 with h | h
  · simp [h]
  · exact absurd h hd3

/-! ## Totality (run-layer) lemmas -/

theorem brl_to_float_run_ok (s : Option String) :
    Capo.brl_to_float_run s = .ok (Capo.brl_to_float s) := by
  cases s with
  | none => rfl
  | some t =>
    simp only [Capo.brl_to_float_run, Capo.brl_to_float]
    split
    · rfl
    · cases hp : parseNumStr (brlClean t) <;> simp [hp]

theorem brl_to_decimal_run_ok (s : Option String) :
    Flip.brl_to_decimal_run s = .ok (Flip.brl_to_decimal s) := by
  cases s with
  | none => rfl
  | some t =>
    simp only [Flip.brl_to_decimal_run, Flip.brl_to_decimal]
    split
    · rfl
    · cases hp : parseNumStr (brlClean t) <;> simp [hp]

theorem hhmm_to_time_run_ok (s : Option String) :
    Capo.hhmm_to_time_run s = .ok (Capo.hhmm_to_time s) := by
  cases s with
  | none => rfl
  | some t =>
    simp only [Capo.hhmm_to_time_run, Capo.hhmm_to_time]
    split
    · rfl
    · cases hm : fullmatchHHMMSS (pyStrip t.toList) with
      | none => simp
      | some v =>
        obtain ⟨hh, mm, ss⟩ := v
        by_cases hcond : hh ≤ 23 ∧ mm ≤ 59 ∧ ss ≤ 59
        · simp [pyTimeE, hcond]
        · simp [pyTimeE, hcond]

theorem parse_time_only_run_ok (s : Option String) :
    MaxM.parse_time_only_run s = .ok (MaxM.parse_time_only s) := by
  cases s with
  | none => rfl
  | some t =>
    simp only [MaxM.parse_time_only_run, MaxM.parse_time_only]
    split
    · rfl
    · cases hm : searchHHMMSS (pyStrip t.toList) with
      | none => simp
      | some v =>
        obtain ⟨hh, mm, ss⟩ := v
        by_cases hcond : hh ≤ 23 ∧ mm ≤ 59 ∧ ss ≤ 59
        · simp [pyTimeE, hcond]
        · simp [pyTimeE, hcond]

/-! ## Wait-loop bounds -/

/-- CapoViagens: from any entry time within the budget window, the loop
returns by `maxWait + 9` tenths (its `find_element` has no explicit
sub-wait, so one tick costs only the 1s sleep). -/
theorem capo_wait_aux_bound (m : ℕ) (page : ℕ → Option String) :
    ∀ fuel t, t ≤ m + 9 →
      (Capo.wait_results_ready_aux m page fuel t).2 ≤ m + 9 := by
  intro fuel
  induction fuel with
  | zero => intro t ht; exact ht
  | succ fuel ih =>
    intro t ht
    simp only [Capo.wait_results_ready_aux]
    split
    · cases hp : page t with
      | some s =>
        dsimp only
        split
        · exact ht
        · exact ih (t + 10) (by omega)
      | none =>
        dsimp only
        exact ih (t + 10) (by omega)
    · exact ht

/-- FlipMilhas: when every per-tick sub-wait stays within its 1s budget,
the loop returns by `maxWait + 39` tenths (three 1s sub-waits plus the 1s
sleep per tick). -/
theorem flip_wait_aux_bound (m : ℕ) (page : ℕ → FlipTick)
    (hdur : ∀ u, (page u).noFlightsDur ≤ 10 ∧ (page u).buy1Dur ≤ 10 ∧
      (page u).buy2Dur ≤ 10) :
    ∀ fuel t, t ≤ m + 39 →
      (Flip.wait_for_buy_button_or_no_flights_aux m page fuel t).2 ≤ m + 39 := by
  intro fuel
  induction fuel with
  | zero => intro t ht; exact ht
  | succ fuel ih =>
    intro t ht
    have hd := hdur t
    simp only [Flip.wait_for_buy_button_or_no_flights_aux]
    split
    · split
      · simp only; omega
      · split
        · simp only; omega
        · split
          · simp only; omega
          · exact ih _ (by omega)
    · exact ht

/-- MaxMilhas: when the 1.5s buy sub-wait stays within its budget, the
loop returns by `maxWait + 24` tenths. -/
theorem max_wait_aux_bound (m : ℕ) (page : ℕ → MaxTick)
    (hdur : ∀ u, (page u).buyDur ≤ 15) :
    ∀ fuel t, t ≤ m + 24 →
      (MaxM.wait_buy_or_empty_aux m page fuel t).2 ≤ m + 24 := by
  intro fuel
  induction fuel with
  | zero => intro t ht; exact ht
  | succ fuel ih =>
    intro t ht
    have hd := hdur t
    simp only [MaxM.wait_buy_or_empty_aux]
    split
    · split
      · simp only; omega
      · split
        · simp only; omega
        · split
          · simp only; omega
          · exact ih _ (by omega)
    · exact ht

/-! ## CapoViagens wait: no third outcome -/

/-- On a page whose text never matches a price or a time pattern, the
CapoViagens wait behaves exactly as on a page whose element never
appears: it returns `false`, with no distinct no-offers outcome. -/
theorem capo_wait_aux_no_match (m : ℕ) (page : ℕ → Option String)
    (hnm : ∀ u s, page u = some s →
      (hasPriceMatch (pyStrip s.toList) || hasTimeMatch none (pyStrip s.toList)) = false) :
    ∀ fuel t, Capo.wait_results_ready_aux m page fuel t =
      Capo.wait_results_ready_aux m (fun _ => none) fuel t := by
  intro fuel
  induction fuel with
  | zero => intro t; rfl
  | succ fuel ih =>
    intro t
    simp only [Capo.wait_results_ready_aux]
    split
    · cases hp : page t with
      | some s =>
        dsimp only
        rw [hnm t s hp]
        simp only [Bool.false_eq_true, if_false]
        exact ih (t + 10)
      | none =>
        dsimp only
        exact ih (t + 10)
    · rfl

/-- The blank page times out with result `false`. -/
theorem capo_wait_aux_none_false (m : ℕ) :
    ∀ fuel t, (Capo.wait_results_ready_aux m (fun _ => none) fuel t).1 = false := by
  intro fuel
  induction fuel with
  | zero => intro t; rfl
  | succ fuel ih =>
    intro t
    simp only [Capo.wait_results_ready_aux]
    split
    · exact ih (t + 10)
    · rfl

/-! ## Claim C4 — money parser round trip -/

/-- Helper: both the garbage branch and the empty branch give `none`. -/
theorem brl_garbage_none (g : String) (hg : ∀ c ∈ g.toList, c.isDigit = false) :
    parseNumStr (brlClean g) = none :=
  parseNumStr_all_dots _ (brlClean_all_dots g hg)

/-- C4.  For every decimal value with two fractional digits rendered as
Brazilian currency text, all three per-variant money parsers return the
original value; for an input without any parsable number (no digit at
all) they return `None`; and (via the explicit exception layer) they
never raise. -/
theorem claim_C4 (cents : ℕ) (g : String)
    (hg : ∀ c ∈ g.toList, c.isDigit = false) (s : Option String) :
    Capo.brl_to_float (some (formatBRL cents)) = some ((cents : ℚ) / 100) ∧
    Flip.brl_to_decimal (some (formatBRL cents)) = some ((cents : ℚ) / 100) ∧
    MaxM.brl_to_decimal (some (formatBRL cents)) = some ((cents : ℚ) / 100) ∧
    Capo.brl_to_float (some g) = none ∧
    Flip.brl_to_decimal (some g) = none ∧
    Capo.brl_to_float_run s = .ok (Capo.brl_to_float s) ∧
    Flip.brl_to_decimal_run s = .ok (Flip.brl_to_decimal s) := by
  have hne : (formatBRL cents).isEmpty = false := mk_cons_isEmpty_false _ _
  have hrt := parseNumStr_formatBRL cents
  have hgn := brl_garbage_none g hg
  refine ⟨?_, ?_, ?_, ?_, ?_, brl_to_float_run_ok s, brl_to_decimal_run_ok s⟩
  · simp [Capo.brl_to_float, hne, hrt]
  · simp [Flip.brl_to_decimal, hne, hrt]
  · simp [MaxM.brl_to_decimal, hne, hrt]
  · cases hge : g.isEmpty
    · simp [Capo.brl_to_float, hge, hgn]
    · simp [Capo.brl_to_float, hge]
  · cases hge : g.isEmpty
    · simp [Flip.brl_to_decimal, hge, hgn]
    · simp [Flip.brl_to_decimal, hge]

theorem claim_C4_witness :
    Capo.brl_to_float (some (formatBRL 123456)) = some ((123456 : ℚ) / 100) ∧
    Capo.brl_to_float (some "abc") = none :=
  ⟨(claim_C4 123456 "abc" (by decide) (some "x")).1,
   (claim_C4 123456 "abc" (by decide) (some "x")).2.2.2.1⟩

/-! ## Claim C10 — the three currency parsers are equivalent -/

/-- C10.  The CapoViagens `brl_to_float`, FlipMilhas `brl_to_decimal`
and MaxMilhas `brl_to_decimal` agree on every input: null exactly
together, and equal values (so equal after any value conversion `conv`,
in particular the `float(...)` conversion of the row builders). -/
theorem claim_C10 (s : Option String) (conv : ℚ → ℚ) :
    Capo.brl_to_float s = Flip.brl_to_decimal s ∧
    Flip.brl_to_decimal s = MaxM.brl_to_decimal s ∧
    ((Capo.brl_to_float s).isNone ↔ (Flip.brl_to_decimal s).isNone) ∧
    (Capo.brl_to_float s).map conv = (Flip.brl_to_decimal s).map conv :=
  ⟨rfl, rfl, Iff.rfl, rfl⟩

/-! ## Claim C8 — all normalizers are total -/

/-- C8.  Every normalizer, run with the explicit Python-exception layer,
returns normally on every input (including `None` and `""`): the raised
exceptions of its primitives are exactly the classes its `except`
clauses catch. -/
theorem claim_C8 (s : Option String) :
    Capo.brl_to_float_run s = .ok (Capo.brl_to_float s) ∧
    Flip.brl_to_decimal_run s = .ok (Flip.brl_to_decimal s) ∧
    Capo.hhmm_to_time_run s = .ok (Capo.hhmm_to_time s) ∧
    MaxM.parse_time_only_run s = .ok (MaxM.parse_time_only s) ∧
    Flip.clean_cia_text_run s = .ok (Flip.clean_cia_text s) ∧
    MaxM.extract_letra_tarifa_run s = .ok (MaxM.extract_letra_tarifa s) :=
  ⟨brl_to_float_run_ok s, brl_to_decimal_run_ok s, hhmm_to_time_run_ok s,
   parse_time_only_run_ok s, rfl, rfl⟩

/-! ## Claim C5 — time parser -/

/-- The claim-side rendering of `"HH:MM"` with `':'`. -/
def renderHM (hh mm : ℕ) : String :=
  ⟨[digitChar (hh / 10), digitChar (hh % 10), ':',
    digitChar (mm / 10), digitChar (mm % 10)]⟩

/-- The claim-side rendering of `"HH:MM:SS"` with `':'`. -/
def renderHMS (hh mm ss : ℕ) : String :=
  ⟨[digitChar (hh / 10), digitChar (hh % 10), ':',
    digitChar (mm / 10), digitChar (mm % 10), ':',
    digitChar (ss / 10), digitChar (ss % 10)]⟩

theorem dropWhile_of_all_neg {p : Char → Bool} {l : List Char}
    (h : ∀ c ∈ l, p c = false) : l.dropWhile p = l := by
  cases l with
  | nil => rfl
  | cons c rest => simp [List.dropWhile_cons, h c (by simp)]

theorem pyStrip_no_ws (l : List Char) (h : ∀ c ∈ l, pyIsSpace c = false) :
    pyStrip l = l := by
  unfold pyStrip
  rw [dropWhile_of_all_neg h,
    dropWhile_of_all_neg (fun c hc => h c (List.mem_reverse.mp hc)),
    List.reverse_reverse]

theorem twoDigits_digitChar {a b : ℕ} (ha : a < 10) (hb : b < 10) :
    twoDigits (digitChar a) (digitChar b) = 10 * a + b := by
  simp [twoDigits, digitVal_digitChar ha, digitVal_digitChar hb]

theorem renderHM_strip (hh mm : ℕ) (h1 : hh ≤ 99) (h2 : mm ≤ 99) :
    pyStrip (renderHM hh mm).toList = (renderHM hh mm).toList := by
  apply pyStrip_no_ws
  intro c hc
  simp only [renderHM, String.toList, List.mem_cons, List.not_mem_nil,
    or_false] at hc
  rcases hc with rfl | rfl | rfl | rfl | rfl
  · exact digitChar_not_space (by omega)
  · exact digitChar_not_space (by omega)
  · decide
  · exact digitChar_not_space (by omega)
  · exact digitChar_not_space (by omega)

theorem renderHMS_strip (hh mm ss : ℕ) (h1 : hh ≤ 99) (h2 : mm ≤ 99)
    (h3 : ss ≤ 99) :
    pyStrip (renderHMS hh mm ss).toList = (renderHMS hh mm ss).toList := by
  apply pyStrip_no_ws
  intro c hc
  simp only [renderHMS, String.toList, List.mem_cons, List.not_mem_nil,
    or_false] at hc
  rcases hc with rfl | rfl | rfl | rfl | rfl | rfl | rfl | rfl
  · exact digitChar_not_space (by omega)
  · exact digitChar_not_space (by omega)
  · decide
  · exact digitChar_not_space (by omega)
  · exact digitChar_not_space (by omega)
  · decide
  · exact digitChar_not_space (by omega)
  · exact digitChar_not_space (by omega)

theorem fullmatch_renderHM (hh mm : ℕ) (h1 : hh ≤ 99) (h2 : mm ≤ 99) :
    fullmatchHHMMSS (renderHM hh mm).toList = some (hh, mm, 0) := by
  have d1 : hh / 10 < 10 := by omega
  have d2 : hh % 10 < 10 := by omega
  have d3 : mm / 10 < 10 := by omega
  have d4 : mm % 10 < 10 := by omega
  simp only [renderHM, String.toList, fullmatchHHMMSS,
    digitChar_isDigit d1, digitChar_isDigit d2, digitChar_isDigit d3,
    digitChar_isDigit d4, twoDigits_digitChar d1 d2, twoDigits_digitChar d3 d4]
  rw [if_pos (by simp)]
  have e1 : 10 * (hh / 10) + hh % 10 = hh := by omega
  have e2 : 10 * (mm / 10) + mm % 10 = mm := by omega
  rw [e1, e2]

theorem fullmatch_renderHMS (hh mm ss : ℕ) (h1 : hh ≤ 99) (h2 : mm ≤ 99)
    (h3 : ss ≤ 99) :
    fullmatchHHMMSS (renderHMS hh mm ss).toList = some (hh, mm, ss) := by
  have d1 : hh / 10 < 10 := by omega
  have d2 : hh % 10 < 10 := by omega
  have d3 : mm / 10 < 10 := by omega
  have d4 : mm % 10 < 10 := by omega
  have d5 : ss / 10 < 10 := by omega
  have d6 : ss % 10 < 10 := by omega
  simp only [renderHMS, String.toList, fullmatchHHMMSS,
    digitChar_isDigit d1, digitChar_isDigit d2, digitChar_isDigit d3,
    digitChar_isDigit d4, digitChar_isDigit d5, digitChar_isDigit d6,
    twoDigits_digitChar d1 d2, twoDigits_digitChar d3 d4,
    twoDigits_digitChar d5 d6]
  rw [if_pos (by simp)]
  have e1 : 10 * (hh / 10) + hh % 10 = hh := by omega
  have e2 : 10 * (mm / 10) + mm % 10 = mm := by omega
  have e3 : 10 * (ss / 10) + ss % 10 = ss := by omega
  rw [e1, e2, e3]

theorem timeMatchHere_renderHM (hh mm : ℕ) (h1 : hh ≤ 99) (h2 : mm ≤ 99) :
    timeMatchHere (renderHM hh mm).toList = some (hh, mm, 0) := by
  have d1 : hh / 10 < 10 := by omega
  have d2 : hh % 10 < 10 := by omega
  have d3 : mm / 10 < 10 := by omega
  have d4 : mm % 10 < 10 := by omega
  simp only [renderHM, String.toList, timeMatchHere,
    digitChar_isDigit d1, digitChar_isDigit d2, digitChar_isDigit d3,
    digitChar_isDigit d4, twoDigits_digitChar d1 d2, twoDigits_digitChar d3 d4]
  rw [if_pos (by simp)]
  have e1 : 10 * (hh / 10) + hh % 10 = hh := by omega
  have e2 : 10 * (mm / 10) + mm % 10 = mm := by omega
  rw [e1, e2]

theorem timeMatchHere_renderHMS (hh mm ss : ℕ) (h1 : hh ≤ 99) (h2 : mm ≤ 99)
    (h3 : ss ≤ 99) :
    timeMatchHere (renderHMS hh mm ss).toList = some (hh, mm, ss) := by
  have d1 : hh / 10 < 10 := by omega
  have d2 : hh % 10 < 10 := by omega
  have d3 : mm / 10 < 10 := by omega
  have d4 : mm % 10 < 10 := by omega
  have d5 : ss / 10 < 10 := by omega
  have d6 : ss % 10 < 10 := by omega
  simp only [renderHMS, String.toList, timeMatchHere,
    digitChar_isDigit d1, digitChar_isDigit d2, digitChar_isDigit d3,
    digitChar_isDigit d4, digitChar_isDigit d5, digitChar_isDigit d6,
    twoDigits_digitChar d1 d2, twoDigits_digitChar d3 d4,
    twoDigits_digitChar d5 d6]
  rw [if_pos (by simp)]
  have e1 : 10 * (hh / 10) + hh % 10 = hh := by omega
  have e2 : 10 * (mm / 10) + mm % 10 = mm := by omega
  have e3 : 10 * (ss / 10) + ss % 10 = ss := by omega
  rw [e1, e2, e3]
  simp

/-- C5 (amended).  The time parsers accept `':'` (not `'h'`) as the
separator: for every in-range `"HH:MM"` / `"HH:MM:SS"` string, CapoViagens's
`hhmm_to_time` and MaxMilhas's `parse_time_only` return exactly that
time-of-day with missing seconds defaulted to 0; an out-of-range two-digit
rendering yields `None` in `hhmm_to_time`; every value `hhmm_to_time`
returns is in range; and `parse_time_only` searches (rather than
full-matches), so it extracts an embedded time from otherwise-malformed
text instead of returning `None`. -/
theorem claim_C5_amended (hh mm ss : ℕ) (h1 : hh ≤ 23) (h2 : mm ≤ 59)
    (h3 : ss ≤ 59) (hh2 mm2 : ℕ) (hr1 : hh2 ≤ 99) (hr2 : mm2 ≤ 99)
    (hbad : ¬(hh2 ≤ 23 ∧ mm2 ≤ 59)) :
    Capo.hhmm_to_time (some (renderHM hh mm)) = some ⟨hh, mm, 0⟩ ∧
    Capo.hhmm_to_time (some (renderHMS hh mm ss)) = some ⟨hh, mm, ss⟩ ∧
    MaxM.parse_time_only (some (renderHM hh mm)) = some ⟨hh, mm, 0⟩ ∧
    MaxM.parse_time_only (some (renderHMS hh mm ss)) = some ⟨hh, mm, ss⟩ ∧
    Capo.hhmm_to_time (some (renderHM hh2 mm2)) = none ∧
    (∀ s t, Capo.hhmm_to_time (some s) = some t →
      t.hour ≤ 23 ∧ t.minute ≤ 59 ∧ t.second ≤ 59) ∧
    MaxM.parse_time_only (some "xx10:30yy") = some ⟨10, 30, 0⟩ := by
  have hne1 : (renderHM hh mm).isEmpty = false := mk_cons_isEmpty_false _ _
  have hne2 : (renderHMS hh mm ss).isEmpty = false := mk_cons_isEmpty_false _ _
  have hne3 : (renderHM hh2 mm2).isEmpty = false := mk_cons_isEmpty_false _ _
  refine ⟨?_, ?_, ?_, ?_, ?_, ?_, by decide⟩
  · simp only [Capo.hhmm_to_time, hne1, Bool.false_eq_true, if_false,
      renderHM_strip hh mm (by omega) (by omega),
      fullmatch_renderHM hh mm (by omega) (by omega), pyTimeE]
    rw [if_pos ⟨h1, h2, by omega⟩]
  · simp only [Capo.hhmm_to_time, hne2, Bool.false_eq_true, if_false,
      renderHMS_strip hh mm ss (by omega) (by omega) (by omega),
      fullmatch_renderHMS hh mm ss (by omega) (by omega) (by omega), pyTimeE]
    rw [if_pos ⟨h1, h2, h3⟩]
  · simp only [MaxM.parse_time_only, hne1, Bool.false_eq_true, if_false,
      renderHM_strip hh mm (by omega) (by omega)]
    have hs : searchHHMMSS (renderHM hh mm).toList = some (hh, mm, 0) := by
      have hmt := timeMatchHere_renderHM hh mm (by omega) (by omega)
      cases htl : (renderHM hh mm).toList with
      | nil => exact absurd (htl ▸ hmt) (by simp [timeMatchHere])
      | cons c rest =>
        rw [htl] at hmt
        simp [searchHHMMSS, hmt]
    simp only [hs, pyTimeE]
    rw [if_pos ⟨h1, h2, by omega⟩]
  · simp only [MaxM.parse_time_only, hne2, Bool.false_eq_true, if_false,
      renderHMS_strip hh mm ss (by omega) (by omega) (by omega)]
    have hs : searchHHMMSS (renderHMS hh mm ss).toList = some (hh, mm, ss) := by
      have hmt := timeMatchHere_renderHMS hh mm ss (by omega) (by omega) (by omega)
      cases htl : (renderHMS hh mm ss).toList with
      | nil => exact absurd (htl ▸ hmt) (by simp [timeMatchHere])
      | cons c rest =>
        rw [htl] at hmt
        simp [searchHHMMSS, hmt]
    simp only [hs, pyTimeE]
    rw [if_pos ⟨h1, h2, h3⟩]
  · simp only [Capo.hhmm_to_time, hne3, Bool.false_eq_true, if_false,
      renderHM_strip hh2 mm2 (by omega) (by omega),
      fullmatch_renderHM hh2 mm2 (by omega) (by omega), pyTimeE]
    rw [if_neg (by omega)]
  · intro s t hparse
    cases hse : s.isEmpty
    · simp only [Capo.hhmm_to_time, hse, Bool.false_eq_true, if_false] at hparse
      cases hmtc : fullmatchHHMMSS (pyStrip s.toList) with
      | none => rw [hmtc] at hparse; exact absurd hparse (by simp)
      | some v =>
        obtain ⟨vh, vm, vs⟩ := v
        rw [hmtc] at hparse
        by_cases hcond : vh ≤ 23 ∧ vm ≤ 59 ∧ vs ≤ 59
        · simp only [pyTimeE, if_pos hcond, Option.some.injEq] at hparse
          rw [← hparse]
          exact hcond
        · simp [pyTimeE, hcond] at hparse
    · simp [Capo.hhmm_to_time, hse] at hparse

theorem claim_C5_witness :
    Capo.hhmm_to_time (some (renderHM 9 5)) = some ⟨9, 5, 0⟩ ∧
    Capo.hhmm_to_time (some (renderHM 25 0)) = none :=
  ⟨(claim_C5_amended 9 5 7 (by decide) (by decide) (by decide) 25 0
      (by decide) (by decide) (by decide)).1,
   (claim_C5_amended 9 5 7 (by decide) (by decide) (by decide) 25 0
      (by decide) (by decide) (by decide)).2.2.2.2.1⟩

/-- C5 counterexample.  `"10h30"` is a valid `"HH:MM"` form with the
`'h'` separator (hour 10, minute 30, both in range), but both time
parsers return `None` on it instead of `10:30:00`, while the same time
with `':'` parses — the claim's `'h'`-separator clause is false. -/
theorem claim_C5_counterexample :
    Capo.hhmm_to_time (some "10h30") = none ∧
    MaxM.parse_time_only (some "10h30") = none ∧
    Capo.hhmm_to_time (some "10:30") = some ⟨10, 30, 0⟩ := by
  decide

/-! ## Claim C9 — total = fare + boarding tax (FlipMilhas) -/

/-- C9 (amended).  FlipMilhas's success-path total is
`fare + boarding_tax` with a null addend treated as zero — but the guard
uses Python truthiness, so the total is computed only when some addend is
parsed *and nonzero*; it is `None` whenever every addend is null or a
parsed zero (a parsed `Decimal(0)` counts as absent). -/
theorem claim_C9_amended (t x : Option ℚ) :
    ((t = none ∨ t = some 0) ∧ (x = none ∨ x = some 0) →
      Flip.flipTotalVal t x = none) ∧
    (t.getD 0 ≠ 0 ∨ x.getD 0 ≠ 0 →
      Flip.flipTotalVal t x = some (t.getD 0 + x.getD 0)) := by
  constructor
  · rintro ⟨ht, hx⟩
    rcases ht with rfl | rfl <;> rcases hx with rfl | rfl <;>
      simp [Flip.flipTotalVal, pyOrDec, decTruthy]
  · intro hnz
    cases t with
    | none =>
      cases x with
      | none => simp at hnz
      | some b =>
        have hb : b ≠ 0 := by simpa using hnz
        simp [Flip.flipTotalVal, pyOrDec, decTruthy, hb]
    | some a =>
      by_cases ha : a = 0
      · subst ha
        cases x with
        | none => simp at hnz
        | some b =>
          have hb : b ≠ 0 := by simpa using hnz
          simp [Flip.flipTotalVal, pyOrDec, decTruthy, hb]
      · cases x with
        | none => simp [Flip.flipTotalVal, pyOrDec, decTruthy, ha]
        | some b =>
          by_cases hb : b = 0
          · subst hb; simp [Flip.flipTotalVal, pyOrDec, decTruthy, ha]
          · simp [Flip.flipTotalVal, pyOrDec, decTruthy, ha, hb]

theorem claim_C9_witness :
    Flip.flipTotalVal (some 5) none = some ((5 : ℚ) + 0) ∧
    Flip.flipTotalVal none none = none :=
  ⟨(claim_C9_amended (some 5) none).2 (by decide),
   (claim_C9_amended none none).1 ⟨Or.inl rfl, Or.inl rfl⟩⟩

/-- C9 counterexample.  `"R$ 0,00"` parses to `Decimal(0)` — the fare
*was* parsed — yet with the boarding tax unparsed the code records
`total = None` instead of the claimed `0 + 0`. -/
theorem claim_C9_counterexample :
    Flip.brl_to_decimal (some "R$ 0,00") = some 0 ∧
    Flip.flipTotalVal (some 0) none = none ∧
    Flip.flipTotalVal (some 0) none ≠ some ((0 : ℚ) + 0) := by
  have hp : parseNumParts (brlClean "R$ 0,00") = some (0, 0, 2) := by decide
  have hne : ("R$ 0,00" : String).isEmpty = false := by decide
  have htv : Flip.flipTotalVal (some 0) none = none := by
    norm_num [Flip.flipTotalVal, pyOrDec, decTruthy]
  refine ⟨?_, htv, ?_⟩
  · norm_num [Flip.brl_to_decimal, hne, parseNumStr, hp, partsVal]
  · rw [htv]
    exact fun hcon => Option.noConfusion hcon

/-! ## Claim C1 — sentinel invariant -/

/-- C1 (amended).  On every NoOffers/Timeout outcome (and on the missing
first card / failed buy click) both row builders emit the sentinel row:
airline `"Sem Ofertas"`, every monetary and time-of-day field null.  On
FlipMilhas's *success* path, however, when the airline text cleans to
empty and neither monetary field parses, the sentinel airline name is
emitted together with whatever time fields parsed — the original "never a
mix" half does not hold there. -/
theorem claim_C1_amended (dataVoo : DateD) (trecho : String)
    (card : Option Capo.CapoCard) (ok : Bool) (status : FlipStatus)
    (clickOk : Bool) (ex : Flip.FlipExtract)
    (hst : status = .no_flights ∨ status = .timeout)
    (hcia : Flip.clean_cia_text ex.ciaTxt = "")
    (htar : Flip.brl_to_decimal ex.tarifaTxt = none)
    (htax : Flip.brl_to_decimal ex.taxaTxt = none) :
    Capo.processar_trecho_advp dataVoo trecho false card =
      Capo.sentinelRow dataVoo trecho ∧
    Capo.processar_trecho_advp dataVoo trecho ok none =
      Capo.sentinelRow dataVoo trecho ∧
    ((Capo.sentinelRow dataVoo trecho).cia = "Sem Ofertas" ∧
      (Capo.sentinelRow dataVoo trecho).horaPartida = none ∧
      (Capo.sentinelRow dataVoo trecho).horaChegada = none ∧
      (Capo.sentinelRow dataVoo trecho).tarifa = none ∧
      (Capo.sentinelRow dataVoo trecho).txEmb = none ∧
      (Capo.sentinelRow dataVoo trecho).total = none) ∧
    Flip.processar_trecho_advp dataVoo trecho status clickOk ex =
      Flip.sentinelRow trecho ∧
    ((Flip.sentinelRow trecho).cia = "Sem Ofertas" ∧
      (Flip.sentinelRow trecho).horaPartida = none ∧
      (Flip.sentinelRow trecho).horaChegada = none ∧
      (Flip.sentinelRow trecho).tarifa = none ∧
      (Flip.sentinelRow trecho).txEmbarque = none ∧
      (Flip.sentinelRow trecho).total = none) ∧
    (Flip.processar_trecho_advp dataVoo trecho .buy_ready true ex).cia =
      "Sem Ofertas" ∧
    (Flip.processar_trecho_advp dataVoo trecho .buy_ready true ex).horaPartida =
      (Flip.parse_datetime_br ex.partidaTxt (some dataVoo)).map DateTimeD.timeOf ∧
    Flip.processar_trecho_advp dataVoo trecho .buy_ready false ex =
      Flip.sentinelRow trecho := by
  refine ⟨?_, ?_, ⟨rfl, rfl, rfl, rfl, rfl, rfl⟩, ?_, ⟨rfl, rfl, rfl, rfl, rfl, rfl⟩, ?_, ?_, ?_⟩
  · simp [Capo.processar_trecho_advp]
  · cases ok <;> simp [Capo.processar_trecho_advp]
  · rcases hst with rfl | rfl <;> simp [Flip.processar_trecho_advp]
  · simp only [Flip.processar_trecho_advp]
    rw [if_neg (by simp), if_neg (by simp)]
    simp [hcia, htar, htax, String.isEmpty]
  · simp only [Flip.processar_trecho_advp]
    rw [if_neg (by simp), if_neg (by simp)]
  · simp [Flip.processar_trecho_advp]

theorem claim_C1_witness :
    Flip.processar_trecho_advp ⟨2025, 10, 19⟩ "CGH-SDU" FlipStatus.timeout true
      ⟨none, none, none, none, none⟩ = Flip.sentinelRow "CGH-SDU" ∧
    Capo.processar_trecho_advp ⟨2025, 10, 19⟩ "CGH-SDU" false none =
      Capo.sentinelRow ⟨2025, 10, 19⟩ "CGH-SDU" :=
  ⟨(claim_C1_amended ⟨2025, 10, 19⟩ "CGH-SDU" none false FlipStatus.timeout true
      ⟨none, none, none, none, none⟩ (Or.inr rfl) (by decide) (by decide)
      (by decide)).2.2.2.1,
   (claim_C1_amended ⟨2025, 10, 19⟩ "CGH-SDU" none false FlipStatus.timeout true
      ⟨none, none, none, none, none⟩ (Or.inr rfl) (by decide) (by decide)
      (by decide)).1⟩

/-- C1 counterexample.  A FlipMilhas success-path iteration whose page
shows a departure time but no prices and no airline text appends a row
mixing the sentinel airline `"Sem Ofertas"` with a non-null time field —
refuting the claim's "no appended record ever mixes the sentinel with
values implying a successful extraction". -/
theorem claim_C1_counterexample :
    (Flip.processar_trecho_advp ⟨2025, 10, 19⟩ "CGH-SDU" FlipStatus.buy_ready true
      ⟨some "08:30", none, none, none, none⟩).cia = "Sem Ofertas" ∧
    (Flip.processar_trecho_advp ⟨2025, 10, 19⟩ "CGH-SDU" FlipStatus.buy_ready true
      ⟨some "08:30", none, none, none, none⟩).horaPartida = some ⟨8, 30, 0⟩ := by
  refine ⟨by decide, by decide⟩

/-! ## Claim C6 — `ensure_workbook` idempotence -/

/-- C6.  `ensure_workbook` is idempotent: a second call on the state the
first call produced changes nothing (in particular it writes no second
header row into the named sheet), and every sheet of an existing valid
workbook — with all its data rows — survives the call unchanged. -/
theorem claim_C6 (sheetName : String) (headers : List Cell) (st : FileState) :
    ensure_workbook sheetName headers (ensure_workbook sheetName headers st) =
      ensure_workbook sheetName headers st ∧
    (∀ wb, st = FileState.valid wb → ∀ sh ∈ wb.sheets,
      sh ∈ (ensure_workbook sheetName headers st).sheetsOf) := by
  constructor
  · cases st with
    | absent => simp [ensure_workbook, create_new_workbook]
    | invalid => simp [ensure_workbook, create_new_workbook]
    | valid wb =>
      by_cases hmem : wb.sheets.any (fun sh => sh.name = sheetName) = true
      · simp [ensure_workbook, hmem]
      · simp only [ensure_workbook, hmem, Bool.false_eq_true, if_false]
        rw [if_pos]
        simp [List.any_append]
  · rintro wb rfl sh hsh
    simp only [ensure_workbook]
    split
    · exact hsh
    · simp only [FileState.sheetsOf]
      exact List.mem_append_left _ hsh

theorem claim_C6_witness :
    ensure_workbook "BUSCAS" HEADERS (ensure_workbook "BUSCAS" HEADERS
      (FileState.valid ⟨[⟨"OLD", [[Cell.str "keep"]]⟩]⟩)) =
      ensure_workbook "BUSCAS" HEADERS
        (FileState.valid ⟨[⟨"OLD", [[Cell.str "keep"]]⟩]⟩) ∧
    (⟨"OLD", [[Cell.str "keep"]]⟩ : Sheet) ∈
      (ensure_workbook "BUSCAS" HEADERS
        (FileState.valid ⟨[⟨"OLD", [[Cell.str "keep"]]⟩]⟩)).sheetsOf :=
  ⟨(claim_C6 "BUSCAS" HEADERS _).1,
   (claim_C6 "BUSCAS" HEADERS _).2 _ rfl _ (by decide)⟩

/-! ## Claim C7 — the orchestrator survives per-iteration failures -/

theorem ciclo_aux_map_fst (beh : (String × String) → ℕ → ℕ → Except PyExc ℕ) :
    ∀ (ps : List ((String × String) × ℕ)) (tab : ℕ),
      ((ciclo_aux beh ps tab).1.map Prod.fst) = ps := by
  intro ps
  induction ps with
  | nil => intro tab; rfl
  | cons p rest ih =>
    intro tab
    cases hb : beh p.1 p.2 tab with
    | ok tab2 => simp [ciclo_aux, hb, ih]
    | error e => simp [ciclo_aux, hb, ih]

set_option maxRecDepth 4000 in
/-- C7.  For every behavior of the per-search body — each iteration free
to raise any exception — the orchestrator's `ciclo` loop still attempts
every `(route, advance-day)` combination, in order, producing one log
entry per combination (8 × 20 = 160 of them); no failure terminates the
batch. -/
theorem claim_C7 (beh : (String × String) → ℕ → ℕ → Except PyExc ℕ) (tab : ℕ) :
    ((ciclo beh tab).1.map Prod.fst) = allCombos ∧
    (ciclo beh tab).1.length = 160 := by
  have h := ciclo_aux_map_fst beh allCombos tab
  refine ⟨h, ?_⟩
  have hl := congrArg List.length h
  simp only [List.length_map] at hl
  show (ciclo_aux beh allCombos tab).1.length = 160
  rw [hl]
  decide

/-! ## Claim C2 — wait-loop termination bounds -/

/-- C2 (amended).  Every wait loop terminates, but the uniform
`timeout + pollInterval` bound holds only for CapoViagens (whose tick has
no element sub-wait).  In tenths of a second: CapoViagens returns within
`timeout + 10`; FlipMilhas within `timeout + 40` (three 1s element
sub-waits per tick plus the 1s sleep); MaxMilhas within `timeout + 25`
(one 1.5s sub-wait plus the 1s sleep) — for every page behavior whose
sub-waits respect their budgets. -/
theorem claim_C2_amended (m : ℕ) (capoPage : ℕ → Option String)
    (flipPage : ℕ → FlipTick) (maxPage : ℕ → MaxTick)
    (hf : ∀ u, (flipPage u).noFlightsDur ≤ 10 ∧ (flipPage u).buy1Dur ≤ 10 ∧
      (flipPage u).buy2Dur ≤ 10)
    (hx : ∀ u, (maxPage u).buyDur ≤ 15) :
    (Capo.wait_results_ready m capoPage).2 ≤ m + 10 ∧
    (Flip.wait_for_buy_button_or_no_flights m flipPage).2 ≤ m + 40 ∧
    (MaxM.wait_buy_or_empty m maxPage).2 ≤ m + 25 := by
  refine ⟨?_, ?_, ?_⟩
  · have h := capo_wait_aux_bound m capoPage (m + 1) 0 (by omega)
    exact Nat.le_trans h (by omega)
  · have h := flip_wait_aux_bound m flipPage hf (m + 1) 0 (by omega)
    exact Nat.le_trans h (by omega)
  · have h := max_wait_aux_bound m maxPage hx (m + 1) 0 (by omega)
    exact Nat.le_trans h (by omega)

theorem claim_C2_witness :
    (Capo.wait_results_ready 20 (fun _ => none)).2 ≤ 20 + 10 ∧
    (Flip.wait_for_buy_button_or_no_flights 20
      (fun _ => ⟨0, none, 0, false, 0, false⟩)).2 ≤ 20 + 40 :=
  ⟨(claim_C2_amended 20 (fun _ => none)
      (fun _ => ⟨0, none, 0, false, 0, false⟩) (fun _ => ⟨0, false, false, false⟩)
      (fun _ => ⟨Nat.zero_le _, Nat.zero_le _, Nat.zero_le _⟩)
      (fun _ => Nat.zero_le _)).1,
   (claim_C2_amended 20 (fun _ => none)
      (fun _ => ⟨0, none, 0, false, 0, false⟩) (fun _ => ⟨0, false, false, false⟩)
      (fun _ => ⟨Nat.zero_le _, Nat.zero_le _, Nat.zero_le _⟩)
      (fun _ => Nat.zero_le _)).2.1⟩

/-- C2 counterexample.  With a 1s timeout budget (10 tenths) and a page
whose three element lookups each consume their full bounded 1s sub-wait,
the FlipMilhas wait returns only at 4s (40 tenths) — beyond the claimed
`timeoutSeconds + pollIntervalSeconds` = 2s (20 tenths) bound. -/
theorem claim_C2_counterexample :
    Flip.wait_for_buy_button_or_no_flights 10
      (fun _ => ⟨10, none, 10, false, 10, false⟩) = (FlipStatus.timeout, 40) ∧
    10 + 10 < 40 := by
  refine ⟨by decide, by decide⟩

/-! ## Claim C3 — three-way outcome -/

/-- FlipMilhas detection lemma: on a page that never shows a buy button,
whose sub-waits respect their budgets, and which displays the
`"nenhum voo"` message from time `T` on with `T + 40 ≤ maxWait`, every
run of the wait loop that is still polling returns `no_flights`.  The
fuel invariant `m + 10 ≤ 10*fuel + t` holds on entry and is preserved, so
the budget branch is never taken. -/
theorem flip_wait_aux_detects (m T : ℕ) (page : ℕ → FlipTick)
    (hd : ∀ u, (page u).noFlightsDur ≤ 10 ∧ (page u).buy1Dur ≤ 10 ∧
      (page u).buy2Dur ≤ 10)
    (hb : ∀ u, (page u).buy1 = false ∧ (page u).buy2 = false)
    (hs : ∀ u, T ≤ u → ∃ s, (page u).noFlightsTxt = some s ∧
      containsSub nenhumVoo ((pyStrip s.toList).map pyLower) = true)
    (hT : T + 40 ≤ m) :
    ∀ fuel t, m + 10 ≤ 10 * fuel + t → t < m → t ≤ T + 39 →
      (Flip.wait_for_buy_button_or_no_flights_aux m page fuel t).1 =
        FlipStatus.no_flights := by
  intro fuel
  induction fuel with
  | zero => intro t hfuel htm _; omega
  | succ fuel ih =>
    intro t hfuel htm htT
    simp only [Flip.wait_for_buy_button_or_no_flights_aux]
    rw [if_pos htm]
    by_cases htt : T ≤ t
    · obtain ⟨s, hsome, hpat⟩ := hs t htt
      rw [hsome]
      simp only [hpat, if_true]
    · cases hhit : (match (page t).noFlightsTxt with
        | some s => containsSub nenhumVoo ((pyStrip s.toList).map pyLower)
        | none => false : Bool) with
      | true => simp only [hhit, if_true]
      | false =>
        have hbt := hb t
        have hdt := hd t
        simp only [hhit, Bool.false_eq_true, if_false, hbt.1, hbt.2]
        exact ih _ (by omega) (by omega) (by omega)

/-- MaxMilhas detection lemma, analogous: no buy button, the 1.5s
sub-wait respects its budget, the "sem resultados" elements are present
from time `T` on with `T + 25 ≤ maxWait` — the wait returns `empty`. -/
theorem max_wait_aux_detects (m T : ℕ) (page : ℕ → MaxTick)
    (hd : ∀ u, (page u).buyDur ≤ 15)
    (hb : ∀ u, (page u).buyMain = false ∧ (page u).buyFall = false)
    (hs : ∀ u, T ≤ u → (page u).noRes = true)
    (hT : T + 25 ≤ m) :
    ∀ fuel t, m + 10 ≤ 10 * fuel + t → t < m → t ≤ T + 24 →
      (MaxM.wait_buy_or_empty_aux m page fuel t).1 = MaxStatus.empty := by
  intro fuel
  induction fuel with
  | zero => intro t hfuel htm _; omega
  | succ fuel ih =>
    intro t hfuel htm htT
    have hbt := hb t
    have hdt := hd t
    simp only [MaxM.wait_buy_or_empty_aux]
    rw [if_pos htm]
    simp only [hbt.1, hbt.2, Bool.false_eq_true, if_false]
    by_cases htt : T ≤ t
    · simp only [hs t htt, if_true]
    · cases hres : (page t).noRes with
      | true => simp only [hres, if_true]
      | false =>
        simp only [hres, Bool.false_eq_true, if_false]
        exact ih _ (by omega) (by omega) (by omega)

/-- C3 (amended).  FlipMilhas and MaxMilhas do produce a three-way
outcome, returning their distinct no-offers variant whenever the
designated "no results" pattern is detected during the poll window: on a
page that never shows a buy button, whose bounded element sub-waits
respect their budgets, and which displays the message from any time `T`
onward leaving one worst-case tick of budget (`T + 4s` for FlipMilhas,
`T + 2.5s` for MaxMilhas, in tenths), the wait returns
`no_flights`/`empty`.  CapoViagens's `wait_results_ready`, however,
returns only a boolean: on a page whose text never matches a price/time
pattern — including a page that displays the no-results message — it
behaves exactly as on a page that never renders, returning `False`. -/
theorem claim_C3_amended (m T : ℕ) (flipPage : ℕ → FlipTick)
    (maxPage : ℕ → MaxTick) (capoPage : ℕ → Option String)
    (hfd : ∀ u, (flipPage u).noFlightsDur ≤ 10 ∧ (flipPage u).buy1Dur ≤ 10 ∧
      (flipPage u).buy2Dur ≤ 10)
    (hfb : ∀ u, (flipPage u).buy1 = false ∧ (flipPage u).buy2 = false)
    (hfs : ∀ u, T ≤ u → ∃ s, (flipPage u).noFlightsTxt = some s ∧
      containsSub nenhumVoo ((pyStrip s.toList).map pyLower) = true)
    (hfT : T + 40 ≤ m)
    (hxd : ∀ u, (maxPage u).buyDur ≤ 15)
    (hxb : ∀ u, (maxPage u).buyMain = false ∧ (maxPage u).buyFall = false)
    (hxs : ∀ u, T ≤ u → (maxPage u).noRes = true)
    (hxT : T + 25 ≤ m)
    (hnm : ∀ u s2, capoPage u = some s2 →
      (hasPriceMatch (pyStrip s2.toList) ||
        hasTimeMatch none (pyStrip s2.toList)) = false) :
    (Flip.wait_for_buy_button_or_no_flights m flipPage).1 =
      FlipStatus.no_flights ∧
    (MaxM.wait_buy_or_empty m maxPage).1 = MaxStatus.empty ∧
    Capo.wait_results_ready m capoPage =
      Capo.wait_results_ready m (fun _ => none) ∧
    (Capo.wait_results_ready m capoPage).1 = false := by
  refine ⟨?_, ?_, ?_, ?_⟩
  · exact flip_wait_aux_detects m T flipPage hfd hfb hfs hfT (m + 1) 0
      (by omega) (by omega) (by omega)
  · exact max_wait_aux_detects m T maxPage hxd hxb hxs hxT (m + 1) 0
      (by omega) (by omega) (by omega)
  · exact capo_wait_aux_no_match m capoPage hnm (m + 1) 0
  · show (Capo.wait_results_ready_aux m capoPage (m + 1) 0).1 = false
    rw [capo_wait_aux_no_match m capoPage hnm (m + 1) 0]
    exact capo_wait_aux_none_false m (m + 1) 0

theorem claim_C3_witness :
    (Flip.wait_for_buy_button_or_no_flights 60
      (fun u => if u < 20 then ⟨0, none, 0, false, 0, false⟩
        else ⟨0, some "Nenhum voo encontrado", 0, false, 0, false⟩)).1 =
      FlipStatus.no_flights ∧
    (MaxM.wait_buy_or_empty 60
      (fun u => ⟨0, false, false, decide (20 ≤ u)⟩)).1 = MaxStatus.empty ∧
    (Capo.wait_results_ready 60 (fun _ => none)).1 = false := by
  refine ⟨?_, ?_, ?_⟩
  · exact (claim_C3_amended 60 20
      (fun u => if u < 20 then ⟨0, none, 0, false, 0, false⟩
        else ⟨0, some "Nenhum voo encontrado", 0, false, 0, false⟩)
      (fun u => ⟨0, false, false, decide (20 ≤ u)⟩) (fun _ => none)
      (fun u => by by_cases h : u < 20 <;> simp [h])
      (fun u => by by_cases h : u < 20 <;> simp [h])
      (fun u hu => ⟨"Nenhum voo encontrado",
        by simp [Nat.not_lt.mpr hu], by decide⟩)
      (by omega) (fun u => Nat.zero_le _) (fun u => ⟨rfl, rfl⟩)
      (fun u hu => by simp [decide_eq_true_eq]; omega) (by omega)
      (fun u s2 h => Option.noConfusion h)).1
  · exact (claim_C3_amended 60 20
      (fun u => if u < 20 then ⟨0, none, 0, false, 0, false⟩
        else ⟨0, some "Nenhum voo encontrado", 0, false, 0, false⟩)
      (fun u => ⟨0, false, false, decide (20 ≤ u)⟩) (fun _ => none)
      (fun u => by by_cases h : u < 20 <;> simp [h])
      (fun u => by by_cases h : u < 20 <;> simp [h])
      (fun u hu => ⟨"Nenhum voo encontrado",
        by simp [Nat.not_lt.mpr hu], by decide⟩)
      (by omega) (fun u => Nat.zero_le _) (fun u => ⟨rfl, rfl⟩)
      (fun u hu => by simp [decide_eq_true_eq]; omega) (by omega)
      (fun u s2 h => Option.noConfusion h)).2.1
  · exact (claim_C3_amended 60 20
      (fun u => if u < 20 then ⟨0, none, 0, false, 0, false⟩
        else ⟨0, some "Nenhum voo encontrado", 0, false, 0, false⟩)
      (fun u => ⟨0, false, false, decide (20 ≤ u)⟩) (fun _ => none)
      (fun u => by by_cases h : u < 20 <;> simp [h])
      (fun u => by by_cases h : u < 20 <;> simp [h])
      (fun u hu => ⟨"Nenhum voo encontrado",
        by simp [Nat.not_lt.mpr hu], by decide⟩)
      (by omega) (fun u => Nat.zero_le _) (fun u => ⟨rfl, rfl⟩)
      (fun u hu => by simp [decide_eq_true_eq]; omega) (by omega)
      (fun u s2 h => Option.noConfusion h)).2.2.2

/-- C3 counterexample.  On a CapoViagens results page showing exactly the
designated no-results message (`"não encontramos voo"` — no price, no
time), the wait returns `(false, 20)`: the very same outcome as on a page
that never renders anything.  There is no distinct NoOffers outcome in
this variant, refuting "in every scraper variant ... three-way tagged
outcome". -/
theorem claim_C3_counterexample :
    Capo.wait_results_ready 20 (fun _ => some "não encontramos voo") = (false, 20) ∧
    Capo.wait_results_ready 20 (fun _ => none) = (false, 20) := by
  refine ⟨by decide, by decide⟩
